import Mathlib

/-!
Verification of the Jaleo event-scraper backend.

Shallow embedding of the pure algorithmic core of
`backend/firebase_config.py` and `backend/scraper_firecrawl_dev.py`:
the sink delete pass, the candidate deduplicator, the extractor cascade,
the ticket reconciler, the code resolver, the markdown ticket parsing
loop and the output normalizer.  Strings are modelled as `List Char`
(Python `str`), machine integers as `Int`/`Nat`, `None`-able values as
`Option`, and each regular expression used by the code is embedded as an
explicit executable matcher with Python `re.search` (leftmost match,
greedy with backtracking) semantics specialised to that pattern.
-/

namespace Jaleo

/-! ### Python string primitives -/

/-- Python whitespace as used by `str.strip` / `\s`. -/
def isPySpace (c : Char) : Bool :=
  c = ' ' || c = '\t' || c = '\n' || c = '\x0d' || c = '\x0b' || c = '\x0c'

/-- `str.strip()` on a character list. -/
def pyStrip (s : List Char) : List Char :=
  ((s.dropWhile isPySpace).reverse.dropWhile isPySpace).reverse

/-- ASCII decimal digit (`\d` for the inputs this code handles). -/
def isDigitC (c : Char) : Bool := '0' ≤ c && c ≤ '9'

def isUpperC (c : Char) : Bool := 'A' ≤ c && c ≤ 'Z'

def isLowerC (c : Char) : Bool := 'a' ≤ c && c ≤ 'z'

def isAlphaC (c : Char) : Bool := isUpperC c || isLowerC c

def isAlnumC (c : Char) : Bool := isAlphaC c || isDigitC c

/-- `str.upper()` per character: ASCII plus the Spanish accented letters
that occur in the scraper's keyword tables. -/
def pyUpperChar (c : Char) : Char :=
  if isLowerC c then Char.ofNat (c.toNat - 32)
  else if c = 'á' then 'Á' else if c = 'é' then 'É'
  else if c = 'í' then 'Í' else if c = 'ó' then 'Ó'
  else if c = 'ú' then 'Ú' else if c = 'ñ' then 'Ñ'
  else if c = 'ü' then 'Ü' else c

/-- `str.lower()` per character: ASCII plus the accented letters above. -/
def pyLowerChar (c : Char) : Char :=
  if isUpperC c then Char.ofNat (c.toNat + 32)
  else if c = 'Á' then 'á' else if c = 'É' then 'é'
  else if c = 'Í' then 'í' else if c = 'Ó' then 'ó'
  else if c = 'Ú' then 'ú' else if c = 'Ñ' then 'ñ'
  else if c = 'Ü' then 'ü' else c

def pyUpper (s : List Char) : List Char := s.map pyUpperChar

def pyLower (s : List Char) : List Char := s.map pyLowerChar

/-- `sep.split` semantics of Python `str.split(sep)` for a one-character
separator: `"a--b".split('-') = ["a", "", "b"]`. -/
def splitChar (sep : Char) : List Char → List (List Char)
  | [] => [[]]
  | c :: rest =>
    let r := splitChar sep rest
    if c = sep then [] :: r
    else
      match r with
      | p :: ps => (c :: p) :: ps
      | [] => [[c]]

/-- Substring test, Python `needle in hay`. -/
def containsSub (needle hay : List Char) : Bool :=
  match hay with
  | [] => needle.isEmpty
  | _ :: rest => needle.isPrefixOf hay || containsSub needle rest

/-- Python `int(s)` on an already-stripped numeric string: optional sign
followed by one or more ASCII digits; anything else raises (`none`). -/
def parsePyInt (s : List Char) : Option Int :=
  let t := pyStrip s
  let core : List Char → Option Int := fun ds =>
    if ds.isEmpty || !ds.all isDigitC then none
    else some (ds.foldl (fun acc c => acc * 10 + (c.toNat - '0'.toNat : Int)) 0)
  match t with
  | '-' :: ds => (core ds).map (fun n => -n)
  | '+' :: ds => core ds
  | ds => core ds

/-- Digit accumulator for `natDigits`, structural on explicit fuel so
that concrete evaluations reduce in the kernel. -/
def natDigitsAux : Nat → Nat → List Char → List Char
  | 0, _, acc => acc
  | fuel + 1, n, acc =>
    if n = 0 then acc
    else natDigitsAux fuel (n / 10) (Char.ofNat ('0'.toNat + n % 10) :: acc)

/-- Digits of a natural number, most significant first. -/
def natDigits (n : Nat) : List Char :=
  if n = 0 then ['0'] else natDigitsAux (n + 1) n []

/-- Python `str(n).zfill(2)` for a natural number. -/
def zfill2 (n : Nat) : List Char :=
  let ds := natDigits n
  if ds.length < 2 then '0' :: ds else ds

/-! ### `firebase_config.is_event_past` and `delete_old_events`

`backend/firebase_config.py` lines 30-169.  A Firestore document is
modelled by the fields the delete pass reads (the `evento` wrapper of
`is_event_past` is plain dict unwrapping and documents are stored flat
by `upload_events_to_firestore`); `datetime.now()` is a parameter. -/

structure PyDateTime where
  year : Int
  month : Int
  day : Int
  hour : Int
  minute : Int
deriving Repr, DecidableEq

structure FireDoc where
  fecha : List Char
  hora_inicio : List Char
  source : List Char
  is_manual : Bool
deriving Repr, DecidableEq

/-- Gregorian leap year, as `datetime` validates it. -/
def isLeapYear (y : Int) : Bool :=
  (y % 4 = 0 && y % 100 ≠ 0) || y % 400 = 0

def daysInMonth (y m : Int) : Int :=
  if m = 1 || m = 3 || m = 5 || m = 7 || m = 8 || m = 10 || m = 12 then 31
  else if m = 4 || m = 6 || m = 9 || m = 11 then 30
  else if m = 2 then (if isLeapYear y then 29 else 28)
  else 0

/-- The constructor `datetime(y, m, d, h, min, 0)` succeeds exactly on
these ranges; outside them it raises `ValueError`. -/
def validDateTime (y m d h mi : Int) : Bool :=
  1 ≤ y && y ≤ 9999 && 1 ≤ m && m ≤ 12 && 1 ≤ d && d ≤ daysInMonth y m &&
  0 ≤ h && h ≤ 23 && 0 ≤ mi && mi ≤ 59

/-- `datetime <` comparison (seconds are zero on both sides). -/
def dtLt (y m d h mi : Int) (now : PyDateTime) : Bool :=
  y < now.year ||
  (y = now.year && (m < now.month ||
    (m = now.month && (d < now.day ||
      (d = now.day && (h < now.hour ||
        (h = now.hour && mi < now.minute)))))))

/-- `firebase_config.is_event_past`: parse `fecha` (`YYYY-MM-DD`) and
`hora_inicio` (`HH:MM`, defaulting to `00:00` when absent or malformed
in shape) and compare with `now`; every parse/validation failure is the
except branch returning `False`. -/
def is_event_past (now : PyDateTime) (d : FireDoc) : Bool :=
  if d.fecha.isEmpty then false
  else
    match splitChar '-' d.fecha with
    | [ys, ms, ds] =>
      match parsePyInt ys, parsePyInt ms, parsePyInt ds with
      | some y, some m, some dd =>
        let hm : Option (Int × Int) :=
          if (pyStrip d.hora_inicio).isEmpty then some (0, 0)
          else
            match splitChar ':' d.hora_inicio with
            | [hs, mis] =>
              match parsePyInt hs, parsePyInt mis with
              | some h, some mi => some (h, mi)
              | _, _ => none
            | _ => some (0, 0)
        match hm with
        | some (h, mi) =>
          if validDateTime y m dd h mi then dtLt y m dd h mi now else false
        | none => false
      | _, _, _ => false
    | _ => false

/-- `firebase_config.delete_old_events`, as the set of documents that
survive the pass: past events are deleted unconditionally; among future
events, manual ones (`source='manual'` or `is_manual`) are preserved,
scraper ones (`source='scraper'` or missing) are deleted, and unknown
sources are preserved. -/
def delete_old_events (now : PyDateTime) (docs : List FireDoc) : List FireDoc :=
  docs.filter (fun d =>
    if is_event_past now d then false
    else if d.source = "manual".data || d.is_manual then true
    else if d.source = "scraper".data || d.source = [] then false
    else true)

/-! ### `scraper_firecrawl_dev.deduplicate_events`

`backend/scraper_firecrawl_dev.py` lines 423-508.  Candidates are the
Python dicts produced by the four extractors; the `source` field records
which extractor produced the candidate (spec §3) — the dicts may carry
it, and `deduplicate_events` never reads it. -/

inductive ExtractorSource where
  | anchorLabel
  | customComponent
  | rawMarkup
  | markdownLink
deriving Repr, DecidableEq

structure RawEvent where
  url : List Char
  code : Option (List Char)
  name : List Char
  venue_slug : List Char
  date_text : List Char
  date_parts : Option (List Char × List Char × List Char)
  source : ExtractorSource
deriving Repr, DecidableEq

/-- Unicode word character (`\w`) for the alphabet this scraper sees:
ASCII alphanumerics, underscore and Spanish accented letters. -/
def isWordC (c : Char) : Bool :=
  isAlnumC c || c = '_' ||
  c = 'á' || c = 'é' || c = 'í' || c = 'ó' || c = 'ú' || c = 'ñ' || c = 'ü' ||
  c = 'Á' || c = 'É' || c = 'Í' || c = 'Ó' || c = 'Ú' || c = 'Ñ' || c = 'Ü'

/-- `re.sub(r'\s+', ' ', s)`: collapse every whitespace run to one space. -/
def collapseWsAux : Bool → List Char → List Char
  | _, [] => []
  | prevSpace, c :: rest =>
    if isPySpace c then
      if prevSpace then collapseWsAux true rest
      else ' ' :: collapseWsAux true rest
    else c :: collapseWsAux false rest

def collapseWs (s : List Char) : List Char := collapseWsAux false s

/-- First `split(sep)` part, Python `s.split(sep)[0]`. -/
def firstPart (sep : Char) (s : List Char) : List Char :=
  (splitChar sep s).headD []

/-- The dedup name key: `re.sub(r'[^\w\s]', '', name.lower()).strip()`
then `re.sub(r'\s+', ' ', ·)`. -/
def dedupNormName (name : List Char) : List Char :=
  collapseWs (pyStrip ((pyLower name).filter (fun c => isWordC c || isPySpace c)))

/-- Matcher for the tail of `-{1,2}(\d{1,2})-(\d{2})-(\d{4})\d*-` after
the day group: `-(\d{2})-(\d{4})\d*-`, returning month and year. -/
def matchMonthYear (l : List Char) : Option (List Char × List Char) :=
  match l with
  | m1 :: m2 :: '-' :: rest2 =>
    if isDigitC m1 && isDigitC m2 then
      match rest2 with
      | y1 :: y2 :: y3 :: y4 :: rest3 =>
        if isDigitC y1 && isDigitC y2 && isDigitC y3 && isDigitC y4 then
          match (rest3.dropWhile isDigitC) with
          | '-' :: _ => some ([m1, m2], [y1, y2, y3, y4])
          | _ => none
        else none
      | _ => none
    else none
  | _ => none

/-- `(\d{1,2})-(\d{2})-(\d{4})\d*-` with the greedy 2-then-1 day group,
returning (day, month, year). -/
def matchDayOn (l : List Char) : Option (List Char × List Char × List Char) :=
  match l with
  | d1 :: '-' :: rest2 =>
    if isDigitC d1 then (matchMonthYear rest2).map (fun p => ([d1], p.1, p.2))
    else none
  | d1 :: d2 :: '-' :: rest2 =>
    if isDigitC d1 && isDigitC d2 then
      (matchMonthYear rest2).map (fun p => ([d1, d2], p.1, p.2))
    else none
  | _ => none

/-- Anchored attempt of `-{1,2}(\d{1,2})-(\d{2})-(\d{4})\d*-` at the
head of `l`, greedy on the leading hyphens with backtracking. -/
def tryDateStampAt (l : List Char) : Option (List Char × List Char × List Char) :=
  match l with
  | '-' :: rest =>
    match rest with
    | '-' :: rest2 => (matchDayOn rest2).orElse (fun _ => matchDayOn rest)
    | _ => matchDayOn rest
  | _ => none

/-- `re.search(r'-{1,2}(\d{1,2})-(\d{2})-(\d{4})\d*-', s)`: leftmost
match, returning the three groups. -/
def searchDateStamp : List Char → Option (List Char × List Char × List Char)
  | [] => none
  | c :: rest => (tryDateStampAt (c :: rest)).orElse (fun _ => searchDateStamp rest)

/-- `\s+\w` continuation: at least one whitespace char followed by a
word character (the `\s+\w+` tail of the date-text pattern). -/
def spacesThenWord (l : List Char) : Bool :=
  let sp := l.takeWhile isPySpace
  let rest := l.dropWhile isPySpace
  !sp.isEmpty && (match rest with | c :: _ => isWordC c | [] => false)

/-- Anchored attempt of `(\d{1,2})\s+\w+`, greedy 2-then-1 day group. -/
def tryDayWordAt (l : List Char) : Option (List Char) :=
  match l with
  | d1 :: rest =>
    if isDigitC d1 then
      match rest with
      | d2 :: rest2 =>
        if isDigitC d2 then
          if spacesThenWord rest2 then some [d1, d2]
          else if spacesThenWord (d2 :: rest2) then some [d1] else none
        else if spacesThenWord (d2 :: rest2) then some [d1] else none
      | [] => none
    else none
  | [] => none

/-- `re.search(r'(\d{1,2})\s+\w+', s)`, returning the day group. -/
def searchDayWord : List Char → Option (List Char)
  | [] => none
  | c :: rest => (tryDayWordAt (c :: rest)).orElse (fun _ => searchDayWord rest)

def monthMap : List (List Char × List Char) :=
  [("enero".data, "01".data), ("febrero".data, "02".data),
   ("marzo".data, "03".data), ("abril".data, "04".data),
   ("mayo".data, "05".data), ("junio".data, "06".data),
   ("julio".data, "07".data), ("agosto".data, "08".data),
   ("septiembre".data, "09".data), ("octubre".data, "10".data),
   ("noviembre".data, "11".data), ("diciembre".data, "12".data)]

/-- Truthiness of an optional string field of the candidate dict. -/
def truthyOpt (o : Option (List Char)) : Bool :=
  match o with
  | some s => !s.isEmpty
  | none => false

/-- `event.get('url', '').strip()` then query/fragment stripping. -/
def dedupNormUrl (e : RawEvent) : List Char :=
  let u := pyStrip e.url
  if u.isEmpty then u else firstPart '#' (firstPart '?' u)

/-- `event.get('code', '').strip().upper() if event.get('code') else None`. -/
def dedupNormCode (e : RawEvent) : Option (List Char) :=
  match e.code with
  | some c => if c.isEmpty then none else some (pyUpper (pyStrip c))
  | none => none

def isSalaRemEvent (e : RawEvent) : Bool :=
  containsSub "sala-rem".data (pyLower e.venue_slug)

/-- The `event_date` string used by the Sala REM (name, date) key:
`_date_parts` first, then the date-text pattern joined with the month
table (year hard-coded `2026` in the source), then the URL date stamp. -/
def dedupEventDate (e : RawEvent) : Option (List Char) :=
  match e.date_parts with
  | some (d, m, y) => some (d ++ '-' :: m ++ '-' :: y)
  | none =>
    if !e.date_text.isEmpty then
      match searchDayWord e.date_text with
      | some day =>
        match monthMap.find? (fun p => containsSub p.1 (pyLower e.date_text)) with
        | some p => some (day ++ '-' :: p.2 ++ '-' :: "2026".data)
        | none => none
      | none => none
    else
      if !(dedupNormUrl e).isEmpty then
        match searchDateStamp (dedupNormUrl e) with
        | some (d, m, y) => some (d ++ '-' :: m ++ '-' :: y)
        | none => none
      else none

/-- The (normalized name, date) key, present only when the candidate is
Sala REM with a non-empty name and a derivable date. -/
def dedupNameDateKey (e : RawEvent) : Option (List Char × List Char) :=
  if isSalaRemEvent e && !(pyStrip e.name).isEmpty then
    match dedupEventDate e with
    | some d => some (dedupNormName (pyStrip e.name), d)
    | none => none
  else none

structure DedupState where
  seen_urls : List (List Char)
  seen_codes : List (List Char)
  seen_name_date : List (List Char × List Char)
deriving Repr

/-- Whether the candidate survives the three dedup criteria against the
current seen-sets (lines 457-498 of the source). -/
def dedupAccept (s : DedupState) (e : RawEvent) : Bool :=
  let url := dedupNormUrl e
  let code := dedupNormCode e
  if !url.isEmpty && s.seen_urls.contains url then false
  else if (match dedupNameDateKey e with
           | some k => s.seen_name_date.contains k
           | none => false) then false
  else if !(isSalaRemEvent e) && truthyOpt code &&
          s.seen_codes.contains (code.getD []) then false
  else true

/-- Seen-set update for an accepted candidate (lines 490-504). -/
def dedupUpdate (s : DedupState) (e : RawEvent) : DedupState :=
  let url := dedupNormUrl e
  let code := dedupNormCode e
  { seen_urls := if !url.isEmpty then url :: s.seen_urls else s.seen_urls
    seen_codes := if truthyOpt code then (code.getD []) :: s.seen_codes
                  else s.seen_codes
    seen_name_date := match dedupNameDateKey e with
                      | some k => k :: s.seen_name_date
                      | none => s.seen_name_date }

def dedupGo (s : DedupState) : List RawEvent → List RawEvent
  | [] => []
  | e :: rest =>
    if dedupAccept s e then e :: dedupGo (dedupUpdate s e) rest
    else dedupGo s rest

/-- `scraper_firecrawl_dev.deduplicate_events`: one pass over the
candidate list with three seen-sets, keeping first-seen candidates. -/
def deduplicate_events (events : List RawEvent) : List RawEvent :=
  dedupGo ⟨[], [], []⟩ events

/-! ### `scraper_firecrawl_dev.extract_events_from_html`

Lines 511-546: the four-strategy cascade.  The extractors themselves
walk BeautifulSoup trees (an external library), so the cascade is
embedded with the four extractor slots as function parameters, applied
to the page representations exactly as the source applies them. -/

/-- The cascade of lines 526-543: strategy 1 on the parsed html,
strategy 2 only when strategy 1 found nothing, strategy 3 on
`raw_html if raw_html and len(raw_html) > len(html) else html` (and
only when non-empty) when 1-2 found nothing, strategy 4 on the markdown
(only when non-empty) when 1-3 found nothing. -/
def extract_events_from_html
    (fromHtmlLinks fromCustomComponents fromRawHtml fromMarkdown :
      List Char → List RawEvent)
    (html markdown raw_html : List Char) : List RawEvent :=
  let all1 := fromHtmlLinks html
  let all2 := if all1.isEmpty then all1 ++ fromCustomComponents html else all1
  let all3 :=
    if all2.isEmpty then
      let html_to_search :=
        if !raw_html.isEmpty && raw_html.length > html.length then raw_html
        else html
      if !html_to_search.isEmpty then all2 ++ fromRawHtml html_to_search
      else all2
    else all2
  if all3.isEmpty && !markdown.isEmpty then all3 ++ fromMarkdown markdown
  else all3

/-- The `html_to_search` selection of line 537. -/
def htmlToSearch (html raw_html : List Char) : List Char :=
  if !raw_html.isEmpty && raw_html.length > html.length then raw_html else html

/-! ### `scraper_firecrawl_dev.match_tickets_with_schema`

Lines 688-859.  A ticket dict carries `tipo`, `precio`, `agotadas`,
`descripcion`, `url_compra` and, for tickets closed mid-parse, the
internal `_candidate_price_line` key. -/

structure Ticket where
  tipo : List Char
  precio : List Char
  agotadas : Bool
  descripcion : List Char
  url_compra : List Char
  candidatePriceLine : Option Nat := none
deriving Repr, DecidableEq

/-- `s.replace(old, new)` — all occurrences, left to right,
non-overlapping — via structural fuel (= input length). -/
def replaceSubAux (old new : List Char) : Nat → List Char → List Char
  | _, [] => []
  | 0, l => l
  | fuel + 1, c :: rest =>
    if old.isPrefixOf (c :: rest) then
      new ++ replaceSubAux old new fuel (rest.drop (old.length - 1))
    else c :: replaceSubAux old new fuel rest

def replaceSub (old new s : List Char) : List Char :=
  replaceSubAux old new s.length s

/-- `normalize_name` of lines 706-714: strip, uppercase, collapse
whitespace, canonicalize the accented promotion/consumption terms. -/
def normalize_name (name : List Char) : List Char :=
  if name.isEmpty then []
  else
    let n1 := collapseWs (pyUpper (pyStrip name))
    let n2 := replaceSub "PROMOCIÓN".data "PROMOCION".data n1
    let n3 := replaceSub "CONSUMICIÓN".data "CONSUMICION".data n2
    replaceSub "CONSUMICIONES".data "CONSUMICION".data n3

/-- `p and str(p).strip() not in ['0', 'None', '']` — a "real" price. -/
def realPrice (p : List Char) : Bool :=
  !p.isEmpty && !(pyStrip p = "0".data) && !(pyStrip p = "None".data) &&
  !(pyStrip p).isEmpty

/-- `{normalize_name(st['tipo']): st for st in schema_tickets}` lookup:
dict comprehension keys are overwritten left to right, so the last
schema ticket with the given normalized name wins. -/
def schemaDictLookup (key : List Char) (schema : List Ticket) : Option Ticket :=
  schema.reverse.find? (fun st => normalize_name st.tipo = key)

/-- Python `str.split()` (no argument): whitespace-separated words. -/
def pySplitWsAux : List Char → List Char → List (List Char)
  | [], acc => if acc.isEmpty then [] else [acc.reverse]
  | c :: rest, acc =>
    if isPySpace c then
      if acc.isEmpty then pySplitWsAux rest []
      else acc.reverse :: pySplitWsAux rest []
    else pySplitWsAux rest (c :: acc)

def pySplitWs (s : List Char) : List (List Char) := pySplitWsAux s []

/-- `len(set(a.split()) & set(b.split()))`. -/
def commonWords (a b : List Char) : Nat :=
  ((pySplitWs a).dedup.filter (fun w => (pySplitWs b).contains w)).length

/-- The partial-match scan of lines 735-742: best strictly-improving
common-word count, requiring at least 2 shared words. -/
def bestPartialByWords (tnorm : List Char) (schema : List Ticket) : Option Ticket :=
  (schema.foldl
    (fun (acc : Option Ticket × Nat) st =>
      let c := commonWords tnorm (normalize_name st.tipo)
      if c > acc.2 && c ≥ 2 then (some st, c) else acc)
    (none, 0)).1

/-- Enrichment of one markdown ticket in the schema-priority branch
(lines 724-751): exact normalized-label match via the dict, else
partial word match, else the markdown ticket unchanged; on a match the
schema ticket is copied, the markdown label kept, and a markdown
`agotadas=True` preserved. -/
def enrichOne (schema : List Ticket) (t : Ticket) : Ticket :=
  let key := normalize_name t.tipo
  match schemaDictLookup key schema with
  | some st =>
    { st with
      tipo := t.tipo
      agotadas := if t.agotadas then true else st.agotadas }
  | none =>
    match bestPartialByWords key schema with
    | some st =>
      { st with
        tipo := t.tipo
        agotadas := if t.agotadas then true else st.agotadas }
    | none => t

/-- Maximal `\w+` runs of a string. -/
def wordRunsAux : List Char → List Char → List (List Char)
  | [], acc => if acc.isEmpty then [] else [acc.reverse]
  | c :: rest, acc =>
    if isWordC c then wordRunsAux rest (c :: acc)
    else if acc.isEmpty then wordRunsAux rest []
    else acc.reverse :: wordRunsAux rest []

def wordRuns (s : List Char) : List (List Char) := wordRunsAux s []

def ticketKeywords : List (List Char) :=
  ["ENTRADA".data, "VIP".data, "COPA".data, "COPAS".data,
   "CONSUMICION".data, "PROMOCION".data, "RESERVADO".data,
   "REDUCIDA".data, "ANTICIPADA".data]

/-- `set(re.findall(r'\b(ENTRADA|...)\b', s))`: the domain keywords
occurring in `s` as whole words. -/
def keywordSet (s : List Char) : List (List Char) :=
  ticketKeywords.filter (fun k => (wordRuns s).contains k)

/-- `set(re.findall(r'\b(\d+)\b', s))`: maximal all-digit word runs. -/
def numberSet (s : List Char) : List (List Char) :=
  ((wordRuns s).filter (fun r => r.all isDigitC)).dedup

/-- Strategy-3 score of lines 801-808: shared keywords plus a +2 bonus
for identical non-empty number sets. -/
def keywordScore (tnorm snorm : List Char) : Nat :=
  let common := ((keywordSet tnorm).filter (fun k => (keywordSet snorm).contains k)).length
  let tn := numberSet tnorm
  let sn := numberSet snorm
  if !tn.isEmpty && !sn.isEmpty && tn.all (sn.contains ·) && sn.all (tn.contains ·) then
    common + 2
  else common

/-- `st.get('precio') == p and st.get('precio') not in ['0','None','']`
(the unstripped membership test of strategy 4). -/
def priceMatches (p sp : List Char) : Bool :=
  sp = p && !(sp = "0".data) && !(sp = "None".data) && !sp.isEmpty

/-- The four matching strategies of lines 770-832, over the indexed
schema list, skipping already-used indices; returns the match index and
ticket. -/
def findSchemaMatch (schema : List Ticket) (used : List Nat) (t : Ticket) :
    Option (Nat × Ticket) :=
  let tnorm := normalize_name t.tipo
  let avail := fun (i : Nat) => !used.contains i
  match schema.enum.find? (fun p => avail p.1 && p.2.tipo = t.tipo) with
  | some p => some p
  | none =>
    match schema.enum.find? (fun p => avail p.1 && normalize_name p.2.tipo = tnorm) with
    | some p => some p
    | none =>
      let best :=
        (schema.enum.foldl
          (fun (acc : Option (Nat × Ticket) × Nat) p =>
            if avail p.1 then
              let score := keywordScore tnorm (normalize_name p.2.tipo)
              if score > acc.2 && score ≥ 2 then (some p, score) else acc
            else acc)
          (none, 0)).1
      match best with
      | some p => some p
      | none =>
        if !t.precio.isEmpty && !(t.precio = "0".data) then
          let cands := schema.enum.filter
            (fun p => avail p.1 && priceMatches t.precio p.2.precio)
          if cands.length = 1 then cands.head? else none
        else none

/-- Application of a found match (lines 834-850): URL always copied,
price copied if the schema price is real, sold-out reconciled. -/
def applySchemaMatch (st t : Ticket) : Ticket :=
  { t with
    url_compra := st.url_compra
    precio := if !st.precio.isEmpty && !(st.precio = "0".data) &&
                 !(st.precio = "None".data) then pyStrip st.precio
              else t.precio
    agotadas := t.agotadas || st.agotadas }

/-- The both-sides-have-data loop of lines 762-852, returning the
processed markdown tickets and the set of used schema indices. -/
def matchLoop (schema : List Ticket) : List Ticket → List Nat →
    (List Ticket × List Nat)
  | [], used => ([], used)
  | t :: ts, used =>
    match findSchemaMatch schema used t with
    | some (idx, st) =>
      let r := matchLoop schema ts (idx :: used)
      (applySchemaMatch st t :: r.1, r.2)
    | none =>
      let r := matchLoop schema ts used
      (t :: r.1, r.2)

/-- `scraper_firecrawl_dev.match_tickets_with_schema` (lines 688-859). -/
def match_tickets_with_schema (markdown_tickets schema_tickets : List Ticket) :
    List Ticket :=
  if schema_tickets.isEmpty then markdown_tickets
  else if markdown_tickets.isEmpty then schema_tickets
  else
    let schema_has_prices := schema_tickets.any (fun st => realPrice st.precio)
    let markdown_has_prices := markdown_tickets.any (fun t => realPrice t.precio)
    if schema_has_prices && !markdown_has_prices then
      let enriched := markdown_tickets.map (enrichOne schema_tickets)
      let used_names := enriched.map (fun t => normalize_name t.tipo)
      enriched ++ schema_tickets.filter
        (fun st => !used_names.contains (normalize_name st.tipo))
    else
      let r := matchLoop schema_tickets markdown_tickets []
      r.1 ++ (schema_tickets.enum.filter (fun p => !r.2.contains p.1)).map (·.2)

/-! ### `scraper_firecrawl_dev.extract_code_from_url`

Lines 145-198.  Each regex is embedded with `re.search` semantics. -/

def isCodeC (c : Char) : Bool := isUpperC c || isDigitC c

/-- `[A-Z0-9]{4,}(?:/|$)` at the head of `l`: only the maximal run can
satisfy the trailing alternation. -/
def matchP1Code (l : List Char) : Option (List Char) :=
  let run := l.takeWhile isCodeC
  let rest := l.dropWhile isCodeC
  if run.length ≥ 4 && (match rest with | [] => true | c :: _ => c = '/')
  then some run else none

/-- `\d{2}-\d{4}\d*-([A-Z0-9]{4,})(?:/|$)` at the head of `l`. -/
def p1MonthYear (l : List Char) : Option (List Char) :=
  match l with
  | m1 :: m2 :: '-' :: rest2 =>
    if isDigitC m1 && isDigitC m2 then
      match rest2 with
      | y1 :: y2 :: y3 :: y4 :: rest3 =>
        if isDigitC y1 && isDigitC y2 && isDigitC y3 && isDigitC y4 then
          match rest3.dropWhile isDigitC with
          | '-' :: rest4 => matchP1Code rest4
          | _ => none
        else none
      | _ => none
    else none
  | _ => none

/-- `\d{1,2}-` day prefix (greedy two digits, then one) followed by the
month/year/code tail. -/
def matchP1Tail (l : List Char) : Option (List Char) :=
  match l with
  | d1 :: rest =>
    if isDigitC d1 then
      match rest with
      | '-' :: rest2 => p1MonthYear rest2
      | d2 :: '-' :: rest2 => if isDigitC d2 then p1MonthYear rest2 else none
      | _ => none
    else none
  | [] => none

/-- The part of the date-stamp pattern after the anchoring slash:
`(?:-{1,2})?` is greedy with backtracking (2 hyphens, then 1, then 0). -/
def p1AfterSlash (rest : List Char) : Option (List Char) :=
  match rest with
  | c :: rest1 =>
    if c = '-' then
      match rest1 with
      | c2 :: rest2 =>
        if c2 = '-' then
          ((matchP1Tail rest2).orElse (fun _ => matchP1Tail rest1)).orElse
            (fun _ => matchP1Tail rest)
        else (matchP1Tail rest1).orElse (fun _ => matchP1Tail rest)
      | [] => (matchP1Tail rest1).orElse (fun _ => matchP1Tail rest)
    else matchP1Tail rest
  | [] => matchP1Tail rest

/-- Anchored attempt of
`/(?:-{1,2})?\d{1,2}-\d{2}-\d{4}\d*-([A-Z0-9]{4,})(?:/|$)`. -/
def tryP1At (l : List Char) : Option (List Char) :=
  match l with
  | c :: rest => if c = '/' then p1AfterSlash rest else none
  | [] => none

def searchP1 : List Char → Option (List Char)
  | [] => none
  | c :: rest => (tryP1At (c :: rest)).orElse (fun _ => searchP1 rest)

/-- Anchored attempt of `/events/([^/]+)(?:/|$)`: the maximal non-slash
run after the literal, which always satisfies the trailing alternation
when non-empty. -/
def tryP2At (l : List Char) : Option (List Char) :=
  if "/events/".data.isPrefixOf l then
    if ((l.drop 8).takeWhile (fun c => c ≠ '/')).isEmpty then none
    else some ((l.drop 8).takeWhile (fun c => c ≠ '/'))
  else none

def searchP2 : List Char → Option (List Char)
  | [] => none
  | c :: rest => (tryP2At (c :: rest)).orElse (fun _ => searchP2 rest)

def isStdCodeC (c : Char) : Bool := isUpperC c || isDigitC c || c = '-'

/-- Anchored attempt of `/events/([A-Z0-9-]+)(?:/|$)`: only the maximal
class run can satisfy the trailing alternation. -/
def tryStdAt (l : List Char) : Option (List Char) :=
  if "/events/".data.isPrefixOf l then
    if !((l.drop 8).takeWhile isStdCodeC).isEmpty &&
       (match (l.drop 8).dropWhile isStdCodeC with
        | [] => true
        | c :: _ => c = '/')
    then some ((l.drop 8).takeWhile isStdCodeC) else none
  else none

def searchStd : List Char → Option (List Char)
  | [] => none
  | c :: rest => (tryStdAt (c :: rest)).orElse (fun _ => searchStd rest)

/-- Python `str.isalnum()` for this scraper's alphabet. -/
def pyIsAlnum (s : List Char) : Bool :=
  !s.isEmpty && s.all (fun c => isAlnumC c || (isWordC c && c ≠ '_'))

/-- `parts[-1]` of the slug's `split('-')`. -/
def lastPart (slug : List Char) : List Char :=
  (splitChar '-' slug).getLastD []

/-- `'-'.join(parts[-2:])`. -/
def lastTwoJoined (slug : List Char) : List Char :=
  List.intercalate ['-']
    ((splitChar '-' slug).drop ((splitChar '-' slug).length - 2))

/-- `scraper_firecrawl_dev.extract_code_from_url` (lines 145-198). -/
def extract_code_from_url (url venue_slug : List Char) : Option (List Char) :=
  if url.isEmpty || !containsSub "/events/".data url then none
  else
    if containsSub "sala-rem".data (pyLower venue_slug) then
      match searchP1 url with
      | some code => some code
      | none =>
        match searchP2 url with
        | some slug =>
          if pyIsAlnum (lastPart slug) && (lastPart slug).length ≥ 4 then
            some (lastPart slug)
          else if (splitChar '-' slug).length ≥ 2 then
            if pyIsAlnum ((lastTwoJoined slug).filter (fun c => c ≠ '-')) &&
               ((lastTwoJoined slug).filter (fun c => c ≠ '-')).length ≥ 4 then
              some (lastTwoJoined slug)
            else none
          else none
        | none => none
    else
      searchStd url

/-! ### The markdown ticket parsing loop of `scrape_event_details`

Lines 1044-1302: a line-by-line state machine over the page markdown
with a positional window for assigning standalone price lines,
sold-out markers and description lines to the current ticket. -/

def commaDot (c : Char) : Char := if c = ',' then '.' else c

def hdrKeywords : List (List Char) :=
  ["ENTRADA".data, "ENTRADAS".data, "PROMOCIÓN".data, "PROMOCION".data,
   "VIP".data, "RESERVADO".data, "LISTA".data]

/-- `line.startswith('- ') and any(keyword in line.upper() ...)`. -/
def isTicketLine (l : List Char) : Bool :=
  "- ".data.isPrefixOf l && hdrKeywords.any (fun k => containsSub k (pyUpper l))

/-- `\s*€` at the head of `l`. -/
def euroAfterSpaces (l : List Char) : Bool :=
  match l.dropWhile isPySpace with
  | '€' :: _ => true
  | _ => false

/-- Anchored attempt of `(\d+(?:[,.]\d+)?)\s*€`: greedy digit run,
optional decimal part, backtracking to the integer-only group when the
decimal attempt cannot reach the euro sign. -/
def tryPriceAt (l : List Char) : Option (List Char) :=
  let ds := l.takeWhile isDigitC
  if ds.isEmpty then none
  else
    let rest := l.dropWhile isDigitC
    match rest with
    | c :: rest2 =>
      if (c = ',' || c = '.') &&
         (match rest2 with | d :: _ => isDigitC d | [] => false) then
        let ds2 := rest2.takeWhile isDigitC
        let rest3 := rest2.dropWhile isDigitC
        if euroAfterSpaces rest3 then some (ds ++ c :: ds2)
        else if euroAfterSpaces rest then some ds else none
      else if euroAfterSpaces rest then some ds else none
    | [] => none

/-- `re.search(r'(\d+(?:[,.]\d+)?)\s*€', s)`, returning group 1. -/
def searchPrice : List Char → Option (List Char)
  | [] => none
  | c :: rest => (tryPriceAt (c :: rest)).orElse (fun _ => searchPrice rest)

/-- `re.search(r'^\d+\s*€$', line)`: the whole line is a digit run,
optional whitespace and a euro sign. -/
def isStandalonePrice (l : List Char) : Bool :=
  !(l.takeWhile isDigitC).isEmpty &&
  ((l.dropWhile isDigitC).dropWhile isPySpace = ['€'])

/-- Group 1 of `(\d+)\s*€` on a standalone price line: its leading
digit run. -/
def standaloneDigits (l : List Char) : List Char := l.takeWhile isDigitC

/-- First price found scanning the stripped lookahead lines (the
`for j in range(i+1, min(i+6, len(lines)))` scan of lines 1106-1113). -/
def firstPriceIn : List (List Char) → Option (List Char)
  | [] => none
  | l :: rest =>
    match searchPrice (pyStrip l) with
    | some p => some (p.map commaDot)
    | none => firstPriceIn rest

structure MdState where
  tickets : List Ticket
  current : Option Ticket
  startLine : Int
  lastEnd : Int
  descriptions : List (List Char)
deriving Repr, DecidableEq

/-- `min(next_ticket_line - ticket_start_line, MAX_DISTANCE)` with the
`MAX_DISTANCE = 50` fallback when no later header exists
(lines 1140-1150). -/
def maxAllowedDist (ticketLines : List Nat) (startLine : Int) : Int :=
  match ticketLines.find? (fun tl => (tl : Int) > startLine) with
  | some nt => min ((nt : Int) - startLine) 50
  | none => 50

/-- `MIN_DISTANCE_FROM_PREVIOUS = 2` window test of line 1154: the
distance from the previous ticket's end is infinite when no ticket was
closed yet. -/
def windowOk (ticketLines : List Nat) (i : Nat) (startLine lastEnd : Int) : Bool :=
  (i : Int) - startLine ≤ maxAllowedDist ticketLines startLine &&
  (lastEnd < 0 || (i : Int) - lastEnd ≥ 2)

/-- One iteration of the markdown loop of lines 1067-1264 on the
stripped line `i`; `lookahead` is the list of following raw lines. -/
def processLine (event_url : List Char) (ticketLines : List Nat) (i : Nat)
    (rawLine : List Char) (lookahead : List (List Char)) (s : MdState) :
    MdState :=
  let line := pyStrip rawLine
  if isTicketLine line then
    let tickets2 := match s.current with
      | some t => s.tickets ++ [t]
      | none => s.tickets
    let lastEnd2 : Int := match s.current with
      | some _ => (i : Int) - 1
      | none => s.lastEnd
    let ticket_name := pyStrip (line.drop 2)
    let inline0 := match searchPrice ticket_name with
      | some p => p.map commaDot
      | none => "0".data
    let inline :=
      if inline0 = "0".data &&
         (containsSub "consumicion".data (pyLower ticket_name) ||
          containsSub "consumición".data (pyLower ticket_name)) then
        (firstPriceIn (lookahead.take 5)).getD inline0
      else inline0
    { tickets := tickets2
      current := some { tipo := ticket_name, precio := inline,
                        agotadas := false, descripcion := [],
                        url_compra := event_url }
      startLine := (i : Int)
      lastEnd := lastEnd2
      descriptions := s.descriptions }
  else
    match s.current with
    | none => s
    | some t =>
      if isStandalonePrice line then
        if t.precio = "0".data then
          if windowOk ticketLines i s.startLine s.lastEnd then
            if (match t.candidatePriceLine with
                | none => true
                | some cl => i < cl) then
              { s with current := some { t with
                  precio := standaloneDigits line
                  candidatePriceLine := some i } }
            else s
          else s
        else s
      else if containsSub "agotad".data (pyLower line) then
        if windowOk ticketLines i s.startLine s.lastEnd then
          { s with current := some { t with agotadas := true } }
        else s
      else if containsSub "copa".data (pyLower line) ||
              containsSub "consumir".data (pyLower line) ||
              containsSub "alcohol".data (pyLower line) then
        if windowOk ticketLines i s.startLine s.lastEnd then
          if t.descripcion.isEmpty || line.length > t.descripcion.length then
            { s with
              current := some { t with descripcion := line }
              descriptions := s.descriptions ++ [line] }
          else s
        else s
      else s

def runParse (event_url : List Char) (ticketLines : List Nat) :
    Nat → MdState → List (List Char) → MdState
  | _, s, [] => s
  | i, s, l :: rest =>
    runParse event_url ticketLines (i + 1)
      (processLine event_url ticketLines i l rest s) rest

/-- Key of the final ticket dedup (lines 1285-1289):
`re.sub(r'\s+', ' ', tipo).strip().lower()` joined with the
comma-normalized price. -/
def ticketDedupKey (t : Ticket) : List Char :=
  pyLower (pyStrip (collapseWs t.tipo)) ++ '|' :: t.precio.map commaDot

def dedupTicketsGo : List (List Char) → List Ticket → List Ticket
  | _, [] => []
  | seen, t :: ts =>
    let k := ticketDedupKey t
    if seen.contains k then dedupTicketsGo seen ts
    else t :: dedupTicketsGo (k :: seen) ts

/-- The ticket list produced by the markdown section of
`scrape_event_details` (lines 1044-1302): pre-collect the header line
numbers from the raw lines, run the loop, close the last open ticket
(dropping its internal candidate-price key), deduplicate. -/
def markdownTickets (event_url markdown : List Char) : List Ticket :=
  let lines := splitChar '\n' markdown
  let ticketLines := (lines.enum.filter (fun p => isTicketLine p.2)).map (·.1)
  let final := runParse event_url ticketLines 0 ⟨[], none, -1, -1, []⟩ lines
  let tickets := match final.current with
    | some t => final.tickets ++ [{ t with candidatePriceLine := none }]
    | none => final.tickets
  dedupTicketsGo [] tickets

/-! ### `scraper_firecrawl_dev.transform_to_app_format`

Lines 1539-1681.  The per-event transformation; `datetime.now()` is a
parameter.  The `lugar` block (venue-info passthrough with float
coordinates) is plain field copying and is not modelled. -/

structure DetailEvent where
  name : Option (List Char)
  description : Option (List Char)
  date_text : List Char
  date_parts : Option (List Char × List Char × List Char)
  url : List Char
  code : Option (List Char)
  venue_slug : List Char
  hora_inicio : Option (List Char)
  hora_fin : Option (List Char)
  image : Option (List Char)
  tickets : List Ticket
  prices : List (List Char)
  tags : Option (List (List Char))
  age_min : Option Int
deriving Repr, DecidableEq

structure AppEvento where
  nombreEvento : List Char
  descripcion : List Char
  fecha : List Char
  hora_inicio : List Char
  hora_fin : List Char
  imagen_url : List Char
  url_evento : List Char
  code : List Char
  entradas : List Ticket
  tags : List (List Char)
  edad_minima : Int
deriving Repr, DecidableEq

/-- `str(n).zfill(k)` left zero padding. -/
def zfillStr (k : Nat) (s : List Char) : List Char :=
  List.replicate (k - s.length) '0' ++ s

/-- `datetime.now().strftime('%Y-%m-%d')`. -/
def todayStr (nowYear nowMonth nowDay : Nat) : List Char :=
  zfillStr 4 (natDigits nowYear) ++ '-' :: zfill2 nowMonth ++ '-' :: zfill2 nowDay

/-- Anchored attempt of `(\d{1,2})\s+(\w+)` (greedy 2-then-1 day
group), returning both groups. -/
def tryDayWord2At (l : List Char) : Option (List Char × List Char) :=
  let grab : List Char → Option (List Char) := fun rest =>
    let sp := rest.takeWhile isPySpace
    let r2 := rest.dropWhile isPySpace
    let w := r2.takeWhile isWordC
    if !sp.isEmpty && !w.isEmpty then some w else none
  match l with
  | d1 :: rest =>
    if isDigitC d1 then
      match rest with
      | d2 :: rest2 =>
        if isDigitC d2 then
          match grab rest2 with
          | some w => some ([d1, d2], w)
          | none =>
            match grab (d2 :: rest2) with
            | some w => some ([d1], w)
            | none => none
        else
          match grab (d2 :: rest2) with
          | some w => some ([d1], w)
          | none => none
      | [] => none
    else none
  | [] => none

/-- `re.search(r'(\d{1,2})\s+(\w+)', s)`. -/
def searchDayWord2 : List Char → Option (List Char × List Char)
  | [] => none
  | c :: rest => (tryDayWord2At (c :: rest)).orElse (fun _ => searchDayWord2 rest)

/-- The `months` dict of lines 1559-1566 (`dict.get` with default
`'12'`); lookups use `month_str = group(2).lower()[:3]`, so only the
three-letter keys can ever match. -/
def monthsGet (k : List Char) : List Char :=
  let table : List (List Char × List Char) :=
    [("ene".data, "01".data), ("feb".data, "02".data), ("mar".data, "03".data),
     ("abr".data, "04".data), ("may".data, "05".data), ("jun".data, "06".data),
     ("jul".data, "07".data), ("ago".data, "08".data), ("sep".data, "09".data),
     ("oct".data, "10".data), ("nov".data, "11".data), ("dic".data, "12".data),
     ("enero".data, "01".data), ("febrero".data, "02".data),
     ("marzo".data, "03".data), ("abril".data, "04".data),
     ("mayo".data, "05".data), ("junio".data, "06".data),
     ("julio".data, "07".data), ("agosto".data, "08".data),
     ("septiembre".data, "09".data), ("octubre".data, "10".data),
     ("noviembre".data, "11".data), ("diciembre".data, "12".data)]
  match table.find? (fun p => p.1 = k) with
  | some p => p.2
  | none => "12".data

/-- The date resolution of lines 1546-1588: `_date_parts` first, then
the date-text pattern with year inference, then the URL date stamp when
`fecha` still equals today's default. -/
def resolveFecha (nowYear nowMonth nowDay : Nat) (e : DetailEvent) : List Char :=
  match e.date_parts with
  | some (d, m, y) => y ++ '-' :: m ++ '-' :: zfillStr 2 d
  | none =>
    let fecha0 := todayStr nowYear nowMonth nowDay
    let fecha1 :=
      match searchDayWord2 e.date_text with
      | some (day, w) =>
        let month := monthsGet ((pyLower w).take 3)
        let year :=
          if (parsePyInt month).getD 0 < (nowMonth : Int) then nowYear + 1
          else nowYear
        natDigits year ++ '-' :: month ++ '-' :: zfillStr 2 day
      | none => fecha0
    if fecha1 = todayStr nowYear nowMonth nowDay && !e.url.isEmpty then
      match searchDateStamp e.url with
      | some (d, m, y) => y ++ '-' :: m ++ '-' :: zfillStr 2 d
      | none => fecha1
    else fecha1

/-- `datetime.strptime(fecha, '%Y-%m-%d')`: 1-4 digit year, 1-2 digit
month and day, all-digit groups, then calendar validation. -/
def parseFechaYmd (s : List Char) : Option (Int × Int × Int) :=
  match splitChar '-' s with
  | [ys, ms, ds] =>
    if !ys.isEmpty && ys.length ≤ 4 && ys.all isDigitC &&
       !ms.isEmpty && ms.length ≤ 2 && ms.all isDigitC &&
       !ds.isEmpty && ds.length ≤ 2 && ds.all isDigitC then
      match parsePyInt ys, parsePyInt ms, parsePyInt ds with
      | some y, some m, some d =>
        if validDateTime y m d 0 0 then some (y, m, d) else none
      | _, _, _ => none
    else none
  | _ => none

/-- `fecha_obj - timedelta(days=1)` on a valid date. -/
def prevDay (y m d : Int) : Int × Int × Int :=
  if d > 1 then (y, m, d - 1)
  else if m > 1 then (y, m - 1, daysInMonth y (m - 1))
  else (y - 1, 12, 31)

/-- `strftime('%Y-%m-%d')`. -/
def fmtYmd (y m d : Int) : List Char :=
  zfillStr 4 (natDigits y.toNat) ++ '-' :: zfill2 m.toNat ++ '-' :: zfill2 d.toNat

/-- The midnight adjustment of lines 1637-1646: applied when
`hora_inicio` is `'00:00'` or `'0:00'`; a `strptime` failure leaves the
date unchanged (the except branch). -/
def midnightAdjust (hora_inicio fecha : List Char) : List Char :=
  if hora_inicio = "00:00".data || hora_inicio = "0:00".data then
    match parseFechaYmd fecha with
    | some (y, m, d) =>
      let p := prevDay y m d
      fmtYmd p.1 p.2.1 p.2.2
    | none => fecha
  else fecha

/-- The `entradas` construction of lines 1591-1623: extracted tickets,
else one synthetic ticket per individual price, else the single
`Entrada General` fallback. -/
def buildEntradas (e : DetailEvent) : List Ticket :=
  let entradas :=
    if !e.tickets.isEmpty then e.tickets
    else e.prices.map (fun p =>
      { tipo := "Entrada General".data, precio := p.map commaDot,
        agotadas := false, descripcion := [], url_compra := e.url })
  if entradas.isEmpty then
    [{ tipo := "Entrada General".data, precio := "0".data,
       agotadas := false, descripcion := [], url_compra := e.url }]
  else entradas

/-- One event of `transform_to_app_format` (lines 1545-1679), without
the `lugar` venue-info passthrough. -/
def transform_event (nowYear nowMonth nowDay : Nat) (e : DetailEvent) :
    AppEvento :=
  let fecha := resolveFecha nowYear nowMonth nowDay e
  let hora_inicio := e.hora_inicio.getD "23:00".data
  { nombreEvento := e.name.getD "Evento".data
    descripcion := e.description.getD []
    fecha := midnightAdjust hora_inicio fecha
    hora_inicio := hora_inicio
    hora_fin := e.hora_fin.getD "06:00".data
    imagen_url := e.image.getD []
    url_evento := e.url
    code := e.code.getD []
    entradas := buildEntradas e
    tags := e.tags.getD ["Fiesta".data]
    edad_minima := e.age_min.getD 18 }

/-- `scraper_firecrawl_dev.transform_to_app_format`. -/
def transform_to_app_format (nowYear nowMonth nowDay : Nat)
    (events : List DetailEvent) : List AppEvento :=
  events.map (transform_event nowYear nowMonth nowDay)

/-- The claim's notion (stated from its wording, to compare with the
code's resolver): the path segment directly after the first `/events/`
occurrence, up to the next `/` or the end of the string. -/
def eventsSegment : List Char → Option (List Char)
  | [] => none
  | c :: rest =>
    if "/events/".data.isPrefixOf (c :: rest) then
      some (((c :: rest).drop 8).takeWhile (fun x => x ≠ '/'))
    else eventsSegment rest

/-- The listing prefix of the Sala REM venue (the configured
`VENUE_URLS` entry plus the trailing slash before the event slug). -/
def remPre : List Char := "https://web.fourvenues.com/es/sala-rem/events/".data

/-- The synthetic event path `<slug>--DD-MM-YYYY-<CODE>` of the claim. -/
def synthTail (slug dd mm yyyy code : List Char) : List Char :=
  slug ++ '-' :: '-' :: (dd ++ '-' :: (mm ++ '-' :: (yyyy ++ '-' :: code)))

/-! ### Concrete instances used by counterexamples and witnesses -/

/-- A past manual document: `delete_old_events` deletes it. -/
def pastManualDoc : FireDoc :=
  { fecha := "2020-01-01".data, hora_inicio := "23:00".data,
    source := "manual".data, is_manual := false }

/-- A future manual document: `delete_old_events` preserves it. -/
def futureManualDoc : FireDoc :=
  { fecha := "2030-01-01".data, hora_inicio := "23:00".data,
    source := "manual".data, is_manual := false }

/-- A low-priority (custom-component) candidate seen first. -/
def c2low : RawEvent :=
  { url := "https://a/events/ABCD".data, code := some "ABCD".data,
    name := "X".data, venue_slug := "luminata-disco".data,
    date_text := [], date_parts := none,
    source := ExtractorSource.customComponent }

/-- A high-priority (anchor-label) candidate for the same code, seen
second. -/
def c2high : RawEvent :=
  { url := "https://b/events/ABCD".data, code := some "ABCD".data,
    name := "Y".data, venue_slug := "luminata-disco".data,
    date_text := [], date_parts := none,
    source := ExtractorSource.anchorLabel }

def c2witFirst : RawEvent :=
  { url := "https://a/events/WXYZ".data, code := some "WXYZ".data,
    name := "P".data, venue_slug := "odiseo".data,
    date_text := [], date_parts := none,
    source := ExtractorSource.rawMarkup }

def c2witSecond : RawEvent :=
  { url := "https://b/events/WXYZ".data, code := some "wxyz".data,
    name := "Q".data, venue_slug := "odiseo".data,
    date_text := [], date_parts := none,
    source := ExtractorSource.markdownLink }

def c3event : RawEvent :=
  { url := "https://v/events/CODE".data, code := some "CODE".data,
    name := "N".data, venue_slug := "v".data,
    date_text := [], date_parts := none,
    source := ExtractorSource.anchorLabel }

/-- The claim's markdown ticket: label `Entrada Vip`, no real price. -/
def c4md : Ticket :=
  { tipo := "Entrada Vip".data, precio := "0".data, agotadas := false,
    descripcion := [], url_compra := "E".data }

/-- The claim's schema ticket: label `ENTRADA VIP`, price 15, URL `U`. -/
def c4sc : Ticket :=
  { tipo := "ENTRADA VIP".data, precio := "15".data, agotadas := false,
    descripcion := [], url_compra := "U".data }

/-- An event resolved to 2025-12-28 whose start time is `0:00`. -/
def c8event : DetailEvent :=
  { name := none, description := none, date_text := [],
    date_parts := some ("28".data, "12".data, "2025".data),
    url := "u".data, code := none, venue_slug := [],
    hora_inicio := some "0:00".data, hora_fin := none, image := none,
    tickets := [], prices := [], tags := none, age_min := none }

/-- An event resolved to 2025-12-28 whose start time is `00:00`. -/
def c8witEvent : DetailEvent :=
  { name := none, description := none, date_text := [],
    date_parts := some ("28".data, "12".data, "2025".data),
    url := "u".data, code := none, venue_slug := [],
    hora_inicio := some "00:00".data, hora_fin := none, image := none,
    tickets := [], prices := [], tags := none, age_min := none }

/-- An open ticket with no price yet, for the C5 witness. -/
def c5ticket : Ticket :=
  { tipo := "ENTRADA VIP".data, precio := "0".data, agotadas := false,
    descripcion := [], url_compra := "U".data }

/-- A parse state whose current ticket is `c5ticket`, opened at line 0
with no previously closed ticket. -/
def c5state : MdState :=
  { tickets := [], current := some c5ticket, startLine := 0,
    lastEnd := -1, descriptions := [] }

/-- An event with no extracted tickets and no individual prices. -/
def c9event : DetailEvent :=
  { name := none, description := none, date_text := [],
    date_parts := none, url := "myurl".data, code := none,
    venue_slug := [], hora_inicio := none, hora_fin := none,
    image := none, tickets := [], prices := [], tags := none,
    age_min := none }

end Jaleo

namespace Jaleo

/-! ## Theorems -/

/-! ### C1 — the delete pass and manual records -/

/-- C1 (counterexample): the claim that `delete_old_events` never
deletes a `source='manual'` document regardless of its date is false:
a manual document whose date/start time lies in the past is deleted by
step 1 of the pass. -/
theorem C1_counterexample :
    ¬ (pastManualDoc ∈
        delete_old_events ⟨2026, 10, 12, 0, 0⟩ [pastManualDoc]) ∧
    pastManualDoc.source = "manual".data := by
  constructor
  · decide
  · rfl

/-- C1 (amended): the delete pass never deletes a *future* manual
record: every document with `source='manual'` or `is_manual=True` whose
date plus start time is not in the past is still present after
`delete_old_events`; past manual documents are deleted like all past
documents. -/
theorem C1_future_manual_preserved (now : PyDateTime) (docs : List FireDoc)
    (d : FireDoc) (hmem : d ∈ docs)
    (hman : d.source = "manual".data ∨ d.is_manual = true)
    (hfut : is_event_past now d = false) :
    d ∈ delete_old_events now docs := by
  unfold delete_old_events
  rw [List.mem_filter]
  refine ⟨hmem, ?_⟩
  rcases hman with h | h <;> simp [hfut, h]

/-- C1 (witness): a concrete future manual document survives the pass. -/
theorem C1_witness :
    futureManualDoc ∈
      delete_old_events ⟨2026, 10, 12, 0, 0⟩ [futureManualDoc] :=
  C1_future_manual_preserved ⟨2026, 10, 12, 0, 0⟩ [futureManualDoc]
    futureManualDoc (by decide) (Or.inl rfl) (by decide)

/-! ### C2 — dedup has no source priority -/

/-- C2 (counterexample): when the same code reaches the deduplicator
from a custom-component candidate first and an anchor-label candidate
second, the custom-component one is kept — not the higher-priority
anchor-label one, refuting the source-priority claim. -/
theorem C2_counterexample :
    deduplicate_events [c2low, c2high] = [c2low] ∧
    c2low.source = ExtractorSource.customComponent ∧
    c2high.source = ExtractorSource.anchorLabel ∧
    dedupNormCode c2low = dedupNormCode c2high := by
  refine ⟨by decide, rfl, rfl, by decide⟩

/-- C2 (amended): the deduplicator carries no source priority at all —
it keeps the first-seen candidate: for any two candidates sharing the
code key (standard venue), whatever their sources, the output is the
first one. -/
theorem C2_first_seen_wins (a b : RawEvent)
    (hb : isSalaRemEvent b = false)
    (ha : truthyOpt (dedupNormCode a) = true)
    (hbc : truthyOpt (dedupNormCode b) = true)
    (heq : dedupNormCode a = dedupNormCode b) :
    deduplicate_events [a, b] = [a] := by
  have hacc : dedupAccept ⟨[], [], []⟩ a = true := by
    unfold dedupAccept
    cases h : dedupNameDateKey a <;> simp [h]
  have hcode : (dedupUpdate ⟨[], [], []⟩ a).seen_codes.contains
      ((dedupNormCode b).getD []) = true := by
    unfold dedupUpdate
    rw [← heq]
    simp [ha]
  have hrej : dedupAccept (dedupUpdate ⟨[], [], []⟩ a) b = false := by
    unfold dedupAccept
    simp only [hb, hbc, hcode]
    cases hk : dedupNameDateKey b <;> simp [ite_self]
  unfold deduplicate_events dedupGo
  rw [if_pos hacc]
  unfold dedupGo
  rw [if_neg (by simp [hrej])]
  rfl

/-- C2 (witness): first-seen-wins at a concrete pair from two further
sources. -/
theorem C2_witness : deduplicate_events [c2witFirst, c2witSecond] = [c2witFirst] :=
  C2_first_seen_wins c2witFirst c2witSecond (by decide) (by decide)
    (by decide) (by decide)

/-! ### C3 — the extractor cascade -/

/-- C3: candidate extraction runs the extractors in the fixed order
anchor-label, custom-component, raw-markup, markdown-link; each
downstream extractor contributes only when all prior extractors yielded
zero candidates, and whenever an earlier extractor is non-empty the
result is exactly that extractor's output (given that the raw-markup
and markdown extractors produce nothing from empty input, which the
empty-input guards of the source otherwise short-circuit). -/
theorem C3_extractor_cascade
    (f1 f2 f3 f4 : List Char → List RawEvent)
    (html markdown raw_html : List Char)
    (h3 : f3 [] = []) (h4 : f4 [] = []) :
    (f1 html ≠ [] →
      extract_events_from_html f1 f2 f3 f4 html markdown raw_html = f1 html) ∧
    (f1 html = [] → f2 html ≠ [] →
      extract_events_from_html f1 f2 f3 f4 html markdown raw_html = f2 html) ∧
    (f1 html = [] → f2 html = [] →
      f3 (htmlToSearch html raw_html) ≠ [] →
      extract_events_from_html f1 f2 f3 f4 html markdown raw_html =
        f3 (htmlToSearch html raw_html)) ∧
    (f1 html = [] → f2 html = [] →
      f3 (htmlToSearch html raw_html) = [] →
      extract_events_from_html f1 f2 f3 f4 html markdown raw_html =
        f4 markdown) := by
  unfold extract_events_from_html htmlToSearch
  generalize (if !raw_html.isEmpty && raw_html.length > html.length
      then raw_html else html : List Char) = t
  refine ⟨?_, ?_, ?_, ?_⟩
  · intro h1
    simp [List.isEmpty_iff, h1]
  · intro h1 h2
    simp [List.isEmpty_iff, h1, h2]
  · intro h1 h2 h3ne
    have ht : t ≠ [] := fun h => h3ne (h ▸ h3)
    simp [List.isEmpty_iff, h1, h2, ht, h3ne]
  · intro h1 h2 h3e
    by_cases hm : markdown = []
    · by_cases ht : t = [] <;>
        simp [List.isEmpty_iff, h1, h2, h3e, h4, hm, ht]
    · by_cases ht : t = [] <;>
        simp [List.isEmpty_iff, h1, h2, h3e, h4, hm, ht]

/-- C3 (witness): with a non-empty first extractor the cascade returns
its output alone. -/
theorem C3_witness :
    extract_events_from_html (fun _ => [c3event]) (fun _ => [])
      (fun _ => []) (fun _ => []) "h".data "m".data "r".data = [c3event] :=
  (C3_extractor_cascade (fun _ => [c3event]) (fun _ => [])
      (fun _ => []) (fun _ => []) "h".data "m".data "r".data rfl rfl).1
    (by simp)

/-! ### C4 — ticket reconciliation precedence -/

/-- C4: when both ticket lists are non-empty, the schema tickets carry
real prices and the markdown tickets do not, every markdown ticket
whose normalized label hits the schema dictionary is merged into one
ticket that keeps the markdown label and takes the schema ticket's
price, purchase URL (and sold-out flag, with a markdown `True`
preserved); the merged ticket sits at the markdown ticket's position.
In particular markdown `{label: "Entrada Vip", price: "0"}` with schema
`{label: "ENTRADA VIP", price: "15", url: "U"}` yields
`{label: "Entrada Vip", price: "15", purchaseUrl: "U"}` (the witness). -/
theorem C4_schema_price_reconciliation
    (md sc : List Ticket) (hmd : md ≠ []) (hsc : sc ≠ [])
    (hsp : (sc.any fun st => realPrice st.precio) = true)
    (hmp : (md.any fun t => realPrice t.precio) = false)
    (i : Nat) (hi : i < md.length) (st : Ticket)
    (hlook : schemaDictLookup (normalize_name (md.get ⟨i, hi⟩).tipo) sc
      = some st) :
    ∃ hj : i < (match_tickets_with_schema md sc).length,
      (match_tickets_with_schema md sc).get ⟨i, hj⟩ =
        { st with
          tipo := (md.get ⟨i, hi⟩).tipo
          agotadas := if (md.get ⟨i, hi⟩).agotadas then true
                      else st.agotadas } := by
  unfold match_tickets_with_schema
  rw [if_neg (by simp [List.isEmpty_iff, hsc]),
    if_neg (by simp [List.isEmpty_iff, hmd]),
    if_pos (by simp [hsp, hmp])]
  have hlen : i < (md.map (enrichOne sc)).length := by
    simpa using hi
  refine ⟨?_, ?_⟩
  · rw [List.length_append]
    exact Nat.lt_of_lt_of_le hlen (Nat.le_add_right _ _)
  · rw [List.get_append i hlen, List.get_map]
    simp only [enrichOne, hlook]

/-- C4 (witness): the claim's example instance. -/
theorem C4_witness :
    ∃ hj : 0 < (match_tickets_with_schema [c4md] [c4sc]).length,
      (match_tickets_with_schema [c4md] [c4sc]).get ⟨0, hj⟩ =
        { tipo := "Entrada Vip".data, precio := "15".data,
          agotadas := false, descripcion := [],
          url_compra := "U".data } := by
  obtain ⟨hj, he⟩ := C4_schema_price_reconciliation [c4md] [c4sc]
    (by decide) (by decide) (by decide) (by decide) 0 (by decide) c4sc
    (by decide)
  exact ⟨hj, he.trans (by decide)⟩

/-! ### C5 — the standalone price window -/

/-- A standalone price line starts with a digit, so it is never a
ticket header line. -/
theorem standalone_not_header (l : List Char)
    (h : isStandalonePrice l = true) : isTicketLine l = false := by
  cases hl : l with
  | nil =>
    rw [hl] at h
    simp [isStandalonePrice] at h
  | cons c l2 =>
    rw [hl] at h
    have hd : isDigitC c = true := by
      by_contra hc
      rw [Bool.not_eq_true] at hc
      simp [isStandalonePrice, List.takeWhile, hc] at h
    have hne : ('-' : Char) ≠ c := by
      intro he
      rw [← he] at hd
      simp [isDigitC] at hd
    simp [isTicketLine, List.isPrefixOf, hne]

/-- C5: in the markdown ticket loop, a standalone `<digits>€` line is
assigned only to the current (immediately preceding header's) ticket:
the closed-tickets list is unchanged and the current ticket's price
changes only when it was still `"0"` and the positional window holds —
the line is within `min(distance-to-next-header, 50)` of its header and
at least 2 lines past the previous ticket's end; in particular the
claim's two-ticket markdown parses with 15 assigned to VIP and 8 to
GENERAL. -/
theorem C5_price_window :
    ((markdownTickets "U".data
        "- ENTRADA VIP\n...\n15€\n- ENTRADA GENERAL\n...\n8€".data).map
      (fun t => (t.tipo, t.precio)) =
      [("ENTRADA VIP".data, "15".data),
       ("ENTRADA GENERAL".data, "8".data)]) ∧
    ∀ (url : List Char) (tls : List Nat) (i : Nat) (raw : List Char)
      (look : List (List Char)) (s : MdState) (t : Ticket),
      s.current = some t → isStandalonePrice (pyStrip raw) = true →
      (processLine url tls i raw look s).tickets = s.tickets ∧
      ∃ t2, (processLine url tls i raw look s).current = some t2 ∧
        t2.tipo = t.tipo ∧ t2.agotadas = t.agotadas ∧
        t2.descripcion = t.descripcion ∧ t2.url_compra = t.url_compra ∧
        (t2.precio = t.precio ∨
          (t.precio = "0".data ∧
           windowOk tls i s.startLine s.lastEnd = true ∧
           t2.precio = standaloneDigits (pyStrip raw))) := by
  constructor
  · decide
  · intro url tls i raw look s t hcur hsp
    have hnt := standalone_not_header (pyStrip raw) hsp
    by_cases hp : t.precio = "0".data
    · by_cases hw : windowOk tls i s.startLine s.lastEnd = true
      · by_cases hcnd : (match t.candidatePriceLine with
            | none => true
            | some cl => decide (i < cl)) = true
        · have heq : processLine url tls i raw look s =
              { s with current := some { t with
                  precio := standaloneDigits (pyStrip raw)
                  candidatePriceLine := some i } } := by
            simp [processLine, hnt, hcur, hsp, hp, hw, hcnd]
          rw [heq]
          exact ⟨rfl, _, rfl, rfl, rfl, rfl, rfl, Or.inr ⟨hp, hw, rfl⟩⟩
        · have heq : processLine url tls i raw look s = s := by
            simp [processLine, hnt, hcur, hsp, hp, hw, hcnd]
          rw [heq]
          exact ⟨rfl, t, hcur, rfl, rfl, rfl, rfl, Or.inl rfl⟩
      · have heq : processLine url tls i raw look s = s := by
          simp [processLine, hnt, hcur, hsp, hp, hw]
        rw [heq]
        exact ⟨rfl, t, hcur, rfl, rfl, rfl, rfl, Or.inl rfl⟩
    · have heq : processLine url tls i raw look s = s := by
        simp [processLine, hnt, hcur, hsp, hp]
      rw [heq]
      exact ⟨rfl, t, hcur, rfl, rfl, rfl, rfl, Or.inl rfl⟩

/-- C5 (witness): a `15€` line two lines below the open ticket's
header, within the window. -/
theorem C5_witness :
    (processLine "U".data [0] 2 "15€".data [] c5state).tickets =
      c5state.tickets ∧
    ∃ t2, (processLine "U".data [0] 2 "15€".data [] c5state).current =
        some t2 ∧
      t2.tipo = c5ticket.tipo ∧ t2.agotadas = c5ticket.agotadas ∧
      t2.descripcion = c5ticket.descripcion ∧
      t2.url_compra = c5ticket.url_compra ∧
      (t2.precio = c5ticket.precio ∨
        (c5ticket.precio = "0".data ∧
         windowOk [0] 2 c5state.startLine c5state.lastEnd = true ∧
         t2.precio = standaloneDigits (pyStrip "15€".data))) :=
  C5_price_window.2 "U".data [0] 2 "15€".data [] c5state c5ticket rfl
    (by decide)

/-! ### C6 — code-resolver round trip: helper lemmas -/

theorem lowerC_facts (c : Char) (h : isLowerC c = true) :
    c ≠ '-' ∧ c ≠ '/' ∧ isDigitC c = false := by
  simp only [isLowerC, Bool.and_eq_true, decide_eq_true_eq] at h
  obtain ⟨h1, _⟩ := h
  refine ⟨fun hc => absurd (hc ▸ h1) (by decide),
    fun hc => absurd (hc ▸ h1) (by decide), ?_⟩
  have h9 : ¬(c ≤ '9') := fun hc => absurd (le_trans h1 hc) (by decide)
  simp [isDigitC, h9]

theorem digitC_facts (c : Char) (h : isDigitC c = true) :
    c ≠ '/' ∧ c ≠ '-' := by
  simp only [isDigitC, Bool.and_eq_true, decide_eq_true_eq] at h
  obtain ⟨h1, _⟩ := h
  exact ⟨fun hc => absurd (hc ▸ h1) (by decide),
    fun hc => absurd (hc ▸ h1) (by decide)⟩

theorem alnumC_facts (c : Char) (h : isAlnumC c = true) :
    c ≠ '/' ∧ c ≠ '-' := by
  simp only [isAlnumC, isAlphaC, isUpperC, isLowerC, isDigitC,
    Bool.or_eq_true, Bool.and_eq_true, decide_eq_true_eq] at h
  rcases h with (⟨h1, _⟩ | ⟨h1, _⟩) | ⟨h1, _⟩ <;>
    exact ⟨fun hc => absurd (hc ▸ h1) (by decide),
      fun hc => absurd (hc ▸ h1) (by decide)⟩

theorem containsSub_nil_needle (b : List Char) : containsSub [] b = true := by
  cases b <;> simp [containsSub, List.isPrefixOf]

theorem containsSub_append_left (n a b : List Char)
    (h : containsSub n a = true) : containsSub n (a ++ b) = true := by
  induction a with
  | nil =>
    simp only [containsSub, List.isEmpty_iff] at h
    subst h
    simpa using containsSub_nil_needle b
  | cons c a ih =>
    rw [List.cons_append]
    simp only [containsSub, Bool.or_eq_true] at h ⊢
    rcases h with h | h
    · left
      have hp := List.isPrefixOf_iff_prefix.mp h
      exact List.isPrefixOf_iff_prefix.mpr (hp.trans (List.prefix_append _ b))
    · right
      exact ih h

theorem tryP1At_cons_ne (c : Char) (l : List Char) (h : c ≠ '/') :
    tryP1At (c :: l) = none := by
  simp [tryP1At, h]

theorem searchP1_cons_none (c : Char) (l : List Char)
    (h : tryP1At (c :: l) = none) : searchP1 (c :: l) = searchP1 l := by
  simp [searchP1, h, Option.orElse]

theorem matchP1Tail_not_digit (c : Char) (l : List Char)
    (h : isDigitC c = false) : matchP1Tail (c :: l) = none := by
  simp [matchP1Tail, h]

theorem p1AfterSlash_stuck (c : Char) (l : List Char) (h1 : c ≠ '-')
    (h2 : isDigitC c = false) : p1AfterSlash (c :: l) = none := by
  simp [p1AfterSlash, h1, matchP1Tail, h2]

theorem searchP1_slash (l : List Char) (h1 : p1AfterSlash l = none)
    (h2 : searchP1 l = none) : searchP1 ('/' :: l) = none := by
  simp [searchP1, tryP1At, h1, h2, Option.orElse]

theorem searchP1_block (a l : List Char) (ha : ∀ c ∈ a, c ≠ '/')
    (h : searchP1 l = none) : searchP1 (a ++ l) = none := by
  induction a with
  | nil => simpa using h
  | cons c a ih =>
    rw [List.cons_append,
      searchP1_cons_none c (a ++ l) (tryP1At_cons_ne c (a ++ l) (ha c (by simp)))]
    exact ih (fun x hx => ha x (by simp [hx]))

theorem searchP1_no_slash (l : List Char) (h : ∀ c ∈ l, c ≠ '/') :
    searchP1 l = none := by
  have := searchP1_block l [] h rfl
  simpa using this

theorem tryP2At_cons_ne (c : Char) (l : List Char) (h : c ≠ '/') :
    tryP2At (c :: l) = none := by
  have hp : ("/events/".data.isPrefixOf (c :: l)) = false := by
    have : (('/' : Char) == c) = false := by
      simp [Ne.symm h]
    simp [List.isPrefixOf, this]
  simp [tryP2At, hp]

theorem tryP2At_slash_ne (c : Char) (l : List Char) (h : c ≠ 'e') :
    tryP2At ('/' :: c :: l) = none := by
  have hp : ("/events/".data.isPrefixOf ('/' :: c :: l)) = false := by
    have : (('e' : Char) == c) = false := by
      simp [Ne.symm h]
    simp [List.isPrefixOf, this]
  simp [tryP2At, hp]

theorem tryP2At_slash_e (c : Char) (l : List Char) (h : c ≠ 'v') :
    tryP2At ('/' :: 'e' :: c :: l) = none := by
  have hp : ("/events/".data.isPrefixOf ('/' :: 'e' :: c :: l)) = false := by
    have : (('v' : Char) == c) = false := by
      simp [Ne.symm h]
    simp [List.isPrefixOf, this]
  simp [tryP2At, hp]

theorem searchP2_cons_none (c : Char) (l : List Char)
    (h : tryP2At (c :: l) = none) : searchP2 (c :: l) = searchP2 l := by
  simp [searchP2, h, Option.orElse]

theorem searchP2_block (a l : List Char) (ha : ∀ c ∈ a, c ≠ '/') :
    searchP2 (a ++ l) = searchP2 l := by
  induction a with
  | nil => simp
  | cons c a ih =>
    rw [List.cons_append,
      searchP2_cons_none c (a ++ l) (tryP2At_cons_ne c (a ++ l) (ha c (by simp)))]
    exact ih (fun x hx => ha x (by simp [hx]))

theorem tryP2At_hit (b : List Char) (hb : ∀ c ∈ b, c ≠ '/') (hne : b ≠ []) :
    tryP2At ("/events/".data ++ b) = some b := by
  unfold tryP2At
  rw [if_pos (List.isPrefixOf_iff_prefix.mpr ⟨b, rfl⟩)]
  have hd : ("/events/".data ++ b).drop 8 = b := by
    have h8 : ("/events/".data).length = 8 := rfl
    have := List.drop_left "/events/".data b
    rw [h8] at this
    exact this
  rw [hd]
  have ht : b.takeWhile (fun c => decide (c ≠ '/')) = b :=
    List.takeWhile_eq_self_iff.mpr (fun x hx => by simpa using hb x hx)
  rw [ht, if_neg]
  simp [List.isEmpty_iff, hne]

theorem searchP2_at_hit (c : Char) (l r : List Char)
    (h : tryP2At (c :: l) = some r) : searchP2 (c :: l) = some r := by
  simp [searchP2, h, Option.orElse]

theorem splitChar_ne_nil (sep : Char) (l : List Char) :
    splitChar sep l ≠ [] := by
  cases l with
  | nil => simp [splitChar]
  | cons c rest =>
    by_cases hc : c = sep
    · simp [splitChar, hc]
    · cases h : splitChar sep rest with
      | nil => simp [splitChar, hc, h]
      | cons p ps => simp [splitChar, hc, h]

theorem splitChar_no_sep (sep : Char) (l : List Char)
    (h : ∀ c ∈ l, c ≠ sep) : splitChar sep l = [l] := by
  induction l with
  | nil => rfl
  | cons c rest ih =>
    have hc : c ≠ sep := h c (by simp)
    simp [splitChar, hc, ih (fun x hx => h x (by simp [hx]))]

theorem getLastD_cons_eq (a : List Char) (l : List (List Char))
    (d : List Char) : (a :: l).getLastD d = l.getLastD a := by
  cases l <;> rfl

theorem splitChar_lastD (sep : Char) (xs ys : List Char) :
    (splitChar sep (xs ++ sep :: ys)).getLastD [] =
      (splitChar sep ys).getLastD [] ∧
    2 ≤ (splitChar sep (xs ++ sep :: ys)).length := by
  induction xs with
  | nil =>
    rw [List.nil_append]
    have hstep : splitChar sep (sep :: ys) = [] :: splitChar sep ys := by
      simp [splitChar]
    rw [hstep]
    constructor
    · exact getLastD_cons_eq [] _ []
    · have h1 := List.length_pos.mpr (splitChar_ne_nil sep ys)
      simp only [List.length_cons]
      omega
  | cons c xs ih =>
    rw [List.cons_append]
    obtain ⟨hlast, hlen⟩ := ih
    by_cases hc : c = sep
    · have hstep : splitChar sep (c :: (xs ++ sep :: ys)) =
          [] :: splitChar sep (xs ++ sep :: ys) := by
        simp [splitChar, hc]
      rw [hstep]
      constructor
      · rw [getLastD_cons_eq]
        exact hlast
      · simp only [List.length_cons]
        omega
    · cases hsp : splitChar sep (xs ++ sep :: ys) with
      | nil => exact absurd hsp (splitChar_ne_nil sep _)
      | cons p ps =>
        rw [hsp] at hlast hlen
        cases ps with
        | nil => simp at hlen
        | cons q ps2 =>
          have hstep : splitChar sep (c :: (xs ++ sep :: ys)) =
              (c :: p) :: q :: ps2 := by
            simp [splitChar, hc, hsp]
          rw [hstep]
          refine ⟨?_, by simp⟩
          rw [getLastD_cons_eq, getLastD_cons_eq]
          rw [getLastD_cons_eq, getLastD_cons_eq] at hlast
          exact hlast

/-- C6: code-resolver round trip.  For every non-empty ASCII
alphanumeric code of length at least 4 (the venue grammar), resolving a
synthetic Sala REM URL `.../events/<slug>--DD-MM-YYYY-<CODE>` (slug a
lowercase-and-hyphen word starting with a letter, DD/MM/YYYY digit
groups) returns exactly the code: the date-stamp pattern requires a
slash immediately before the stamp and therefore falls through, and the
last-hyphen-segment fallback recovers the code. -/
theorem C6_code_roundtrip
    (slug dd mm yyyy code : List Char) (sc : Char) (srest : List Char)
    (hslug : slug = sc :: srest)
    (hsc : isLowerC sc = true)
    (hslugc : ∀ c ∈ slug, isLowerC c = true ∨ c = '-')
    (hddl : dd.length = 2) (hddd : ∀ c ∈ dd, isDigitC c = true)
    (hmml : mm.length = 2) (hmmd : ∀ c ∈ mm, isDigitC c = true)
    (hyyl : yyyy.length = 4) (hyyd : ∀ c ∈ yyyy, isDigitC c = true)
    (hcne : code ≠ []) (hca : ∀ c ∈ code, isAlnumC c = true)
    (hcl : 4 ≤ code.length) :
    extract_code_from_url (remPre ++ synthTail slug dd mm yyyy code)
      "sala-rem".data = some code := by
  subst hslug
  rw [remPre, synthTail]
  have hT : ∀ c ∈ (sc :: srest) ++
      '-' :: '-' :: (dd ++ '-' :: (mm ++ '-' :: (yyyy ++ '-' :: code))),
      c ≠ '/' := by
    intro c hc
    have hslash : ∀ x : Char, isLowerC x = true ∨ x = '-' → x ≠ '/' :=
      fun x h => h.elim (fun hl => (lowerC_facts x hl).2.1)
        (fun hh => by rw [hh]; decide)
    rcases List.mem_append.mp hc with h1 | h2
    · exact hslash c (hslugc c h1)
    · rcases List.mem_cons.mp h2 with he | h3
      · rw [he]; decide
      rcases List.mem_cons.mp h3 with he | h4
      · rw [he]; decide
      rcases List.mem_append.mp h4 with h5 | h6
      · exact (digitC_facts c (hddd c h5)).1
      rcases List.mem_cons.mp h6 with he | h7
      · rw [he]; decide
      rcases List.mem_append.mp h7 with h8 | h9
      · exact (digitC_facts c (hmmd c h8)).1
      rcases List.mem_cons.mp h9 with he | h10
      · rw [he]; decide
      rcases List.mem_append.mp h10 with h11 | h12
      · exact (digitC_facts c (hyyd c h11)).1
      rcases List.mem_cons.mp h12 with he | h13
      · rw [he]; decide
      · exact (alnumC_facts c (hca c h13)).1
  have hlow := lowerC_facts sc hsc
  -- the date-stamp pattern finds no match anywhere in the URL
  have hT1 : searchP1 ((sc :: srest) ++
      '-' :: '-' :: (dd ++ '-' :: (mm ++ '-' :: (yyyy ++ '-' :: code)))) =
      none := searchP1_no_slash _ hT
  have h1 : searchP1 ('/' :: ((sc :: srest) ++
      '-' :: '-' :: (dd ++ '-' :: (mm ++ '-' :: (yyyy ++ '-' :: code))))) =
      none :=
    searchP1_slash _ (p1AfterSlash_stuck sc _ hlow.1 hlow.2.2) hT1
  have h2 := searchP1_block "events".data _ (by decide) h1
  have h3 := searchP1_slash _
    (p1AfterSlash_stuck 'e' _ (by decide) (by decide)) h2
  have h4 := searchP1_block "sala-rem".data _ (by decide) h3
  have h5 := searchP1_slash _
    (p1AfterSlash_stuck 's' _ (by decide) (by decide)) h4
  have h6 := searchP1_block "es".data _ (by decide) h5
  have h7 := searchP1_slash _
    (p1AfterSlash_stuck 'e' _ (by decide) (by decide)) h6
  have h8 := searchP1_block "web.fourvenues.com".data _ (by decide) h7
  have h9 := searchP1_slash _
    (p1AfterSlash_stuck 'w' _ (by decide) (by decide)) h8
  have h10 := searchP1_slash _
    (p1AfterSlash_stuck '/' _ (by decide) (by decide)) h9
  have hP1 := searchP1_block "https:".data _ (by decide) h10
  -- the slug pattern anchors at "/events/" and captures the whole tail
  have hTne : (sc :: srest) ++
      '-' :: '-' :: (dd ++ '-' :: (mm ++ '-' :: (yyyy ++ '-' :: code))) ≠
      [] := by simp
  have hit := tryP2At_hit _ hT hTne
  have m3 := searchP2_at_hit '/' ("events".data ++ '/' :: ((sc :: srest) ++
      '-' :: '-' :: (dd ++ '-' :: (mm ++ '-' :: (yyyy ++ '-' :: code))))) _ hit
  have m4 : searchP2 ("sala-rem".data ++ '/' :: ("events".data ++ '/' ::
      ((sc :: srest) ++ '-' :: '-' ::
        (dd ++ '-' :: (mm ++ '-' :: (yyyy ++ '-' :: code)))))) = some ((sc :: srest) ++ '-' :: '-' :: (dd ++ '-' :: (mm ++ '-' :: (yyyy ++ '-' :: code)))) := by
    exact (searchP2_block "sala-rem".data _ (by decide)).trans m3
  have m5 : searchP2 ('/' :: ("sala-rem".data ++ '/' :: ("events".data ++
      '/' :: ((sc :: srest) ++ '-' :: '-' ::
        (dd ++ '-' :: (mm ++ '-' :: (yyyy ++ '-' :: code))))))) = some ((sc :: srest) ++ '-' :: '-' :: (dd ++ '-' :: (mm ++ '-' :: (yyyy ++ '-' :: code)))) := by
    exact (searchP2_cons_none '/' _ (tryP2At_slash_ne 's' _ (by decide))).trans m4
  have m6 : searchP2 ("es".data ++ '/' :: ("sala-rem".data ++ '/' ::
      ("events".data ++ '/' :: ((sc :: srest) ++ '-' :: '-' ::
        (dd ++ '-' :: (mm ++ '-' :: (yyyy ++ '-' :: code))))))) = some ((sc :: srest) ++ '-' :: '-' :: (dd ++ '-' :: (mm ++ '-' :: (yyyy ++ '-' :: code)))) := by
    exact (searchP2_block "es".data _ (by decide)).trans m5
  have m7 : searchP2 ('/' :: ("es".data ++ '/' :: ("sala-rem".data ++ '/' ::
      ("events".data ++ '/' :: ((sc :: srest) ++ '-' :: '-' ::
        (dd ++ '-' :: (mm ++ '-' :: (yyyy ++ '-' :: code)))))))) = some ((sc :: srest) ++ '-' :: '-' :: (dd ++ '-' :: (mm ++ '-' :: (yyyy ++ '-' :: code)))) := by
    exact (searchP2_cons_none '/' _ (tryP2At_slash_e 's' _ (by decide))).trans m6
  have m8 : searchP2 ("web.fourvenues.com".data ++ '/' :: ("es".data ++
      '/' :: ("sala-rem".data ++ '/' :: ("events".data ++ '/' ::
      ((sc :: srest) ++ '-' :: '-' ::
        (dd ++ '-' :: (mm ++ '-' :: (yyyy ++ '-' :: code)))))))) = some ((sc :: srest) ++ '-' :: '-' :: (dd ++ '-' :: (mm ++ '-' :: (yyyy ++ '-' :: code)))) := by
    exact (searchP2_block "web.fourvenues.com".data _ (by decide)).trans m7
  have m9 : searchP2 ('/' :: ("web.fourvenues.com".data ++ '/' ::
      ("es".data ++ '/' :: ("sala-rem".data ++ '/' :: ("events".data ++
      '/' :: ((sc :: srest) ++ '-' :: '-' ::
        (dd ++ '-' :: (mm ++ '-' :: (yyyy ++ '-' :: code))))))))) =
      some ((sc :: srest) ++ '-' :: '-' :: (dd ++ '-' :: (mm ++ '-' :: (yyyy ++ '-' :: code)))) := by
    exact (searchP2_cons_none '/' _ (tryP2At_slash_ne 'w' _ (by decide))).trans m8
  have m10 : searchP2 ('/' :: '/' :: ("web.fourvenues.com".data ++ '/' ::
      ("es".data ++ '/' :: ("sala-rem".data ++ '/' :: ("events".data ++
      '/' :: ((sc :: srest) ++ '-' :: '-' ::
        (dd ++ '-' :: (mm ++ '-' :: (yyyy ++ '-' :: code))))))))) =
      some ((sc :: srest) ++ '-' :: '-' :: (dd ++ '-' :: (mm ++ '-' :: (yyyy ++ '-' :: code)))) := by
    exact (searchP2_cons_none '/' _ (tryP2At_slash_ne '/' _ (by decide))).trans m9
  have hP2 : searchP2 ("https:".data ++ '/' :: '/' ::
      ("web.fourvenues.com".data ++ '/' :: ("es".data ++ '/' ::
      ("sala-rem".data ++ '/' :: ("events".data ++ '/' ::
      ((sc :: srest) ++ '-' :: '-' ::
        (dd ++ '-' :: (mm ++ '-' :: (yyyy ++ '-' :: code))))))))) =
      some ((sc :: srest) ++ '-' :: '-' :: (dd ++ '-' :: (mm ++ '-' :: (yyyy ++ '-' :: code)))) := by
    exact (searchP2_block "https:".data _ (by decide)).trans m10
  -- the fallback takes the last hyphen-separated segment: the code
  have hTsplit : (sc :: srest) ++
      '-' :: '-' :: (dd ++ '-' :: (mm ++ '-' :: (yyyy ++ '-' :: code))) =
      ((sc :: srest) ++ '-' :: '-' :: (dd ++ '-' :: (mm ++ '-' :: yyyy)))
        ++ '-' :: code := by
    simp [List.append_assoc]
  have hcodeNoDash : ∀ c ∈ code, c ≠ '-' :=
    fun c hc => (alnumC_facts c (hca c hc)).2
  have hlastT : lastPart ((sc :: srest) ++
      '-' :: '-' :: (dd ++ '-' :: (mm ++ '-' :: (yyyy ++ '-' :: code)))) =
      code := by
    rw [lastPart, hTsplit, (splitChar_lastD '-' _ code).1,
      splitChar_no_sep '-' code hcodeNoDash]
    rfl
  have hcontains : containsSub "/events/".data
      ("https://web.fourvenues.com/es/sala-rem/events/".data ++
        ((sc :: srest) ++ '-' :: '-' ::
          (dd ++ '-' :: (mm ++ '-' :: (yyyy ++ '-' :: code))))) = true :=
    containsSub_append_left "/events/".data
      "https://web.fourvenues.com/es/sala-rem/events/".data
      ((sc :: srest) ++ '-' :: '-' ::
        (dd ++ '-' :: (mm ++ '-' :: (yyyy ++ '-' :: code))))
      (by decide)
  have hempty : ("https://web.fourvenues.com/es/sala-rem/events/".data ++
      ((sc :: srest) ++ '-' :: '-' ::
        (dd ++ '-' :: (mm ++ '-' :: (yyyy ++ '-' :: code))))).isEmpty =
      false := rfl
  unfold extract_code_from_url
  rw [if_neg (by rw [hempty, hcontains]; decide)]
  rw [if_pos (by decide)]
  have hP1e : searchP1
      ("https://web.fourvenues.com/es/sala-rem/events/".data ++
        ((sc :: srest) ++ '-' :: '-' ::
          (dd ++ '-' :: (mm ++ '-' :: (yyyy ++ '-' :: code))))) = none := hP1
  have hP2e : searchP2
      ("https://web.fourvenues.com/es/sala-rem/events/".data ++
        ((sc :: srest) ++ '-' :: '-' ::
          (dd ++ '-' :: (mm ++ '-' :: (yyyy ++ '-' :: code))))) =
      some ((sc :: srest) ++ '-' :: '-' ::
          (dd ++ '-' :: (mm ++ '-' :: (yyyy ++ '-' :: code)))) := hP2
  simp only [hP1e, hP2e]
  rw [hlastT]
  have hpy : pyIsAlnum code = true := by
    simp only [pyIsAlnum, Bool.and_eq_true, List.all_eq_true]
    constructor
    · simp [List.isEmpty_iff, hcne]
    · intro c hc
      simp [hca c hc]
  rw [if_pos (by simp [hpy, hcl])]

/-- C6 (witness): the docstring's own example URL family at the code
`HZOY`. -/
theorem C6_witness :
    extract_code_from_url
      (remPre ++ synthTail "friday-session".data "09".data "01".data
        "2026".data "HZOY".data) "sala-rem".data = some "HZOY".data :=
  C6_code_roundtrip "friday-session".data "09".data "01".data "2026".data
    "HZOY".data 'f' "riday-session".data rfl (by decide) (by decide)
    (by decide) (by decide) (by decide) (by decide) (by decide) (by decide)
    (by decide) (by decide) (by decide)

/-! ### C7 — dedup idempotence -/

theorem dedupGo_step_pos (s : DedupState) (e : RawEvent) (rest : List RawEvent)
    (h : dedupAccept s e = true) :
    dedupGo s (e :: rest) = e :: dedupGo (dedupUpdate s e) rest := by
  simp only [dedupGo]
  rw [if_pos h]

theorem dedupGo_step_neg (s : DedupState) (e : RawEvent) (rest : List RawEvent)
    (h : ¬ dedupAccept s e = true) :
    dedupGo s (e :: rest) = dedupGo s rest := by
  simp only [dedupGo]
  rw [if_neg h]

theorem dedupGo_idem (es : List RawEvent) :
    ∀ s, dedupGo s (dedupGo s es) = dedupGo s es := by
  induction es with
  | nil => intro s; rfl
  | cons e es ih =>
    intro s
    by_cases h : dedupAccept s e = true
    · rw [dedupGo_step_pos s e es h, dedupGo_step_pos s e _ h,
        ih (dedupUpdate s e)]
    · rw [dedupGo_step_neg s e es h, ih s]

/-- C7: deduplication is idempotent — running `deduplicate_events` on
its own output returns that output unchanged, elements and order. -/
theorem C7_dedup_idempotent (events : List RawEvent) :
    deduplicate_events (deduplicate_events events) = deduplicate_events events :=
  dedupGo_idem events ⟨[], [], []⟩

/-! ### C8 — midnight rollback -/

/-- C8 (counterexample): the rollback also fires for start time
`'0:00'`, so "for any other start time the resolved date is unchanged"
is false: a `0:00` event resolved to 2025-12-28 is moved to
2025-12-27. -/
theorem C8_counterexample :
    (transform_event 2025 10 12 c8event).fecha ≠
      resolveFecha 2025 10 12 c8event ∧
    c8event.hora_inicio.getD "23:00".data ≠ "00:00".data ∧
    (transform_event 2025 10 12 c8event).fecha = "2025-12-27".data := by
  refine ⟨by decide, by decide, by decide⟩

/-- C8 (amended): if the resolved start time is exactly `00:00` *or*
`0:00` and the resolved date parses as a calendar date, normalization
shifts the date back one day; for every other start time the resolved
date is unchanged. -/
theorem C8_midnight_rollback (ny nm nd : Nat) (e : DetailEvent) (y m d : Int) :
    ((e.hora_inicio.getD "23:00".data = "00:00".data ∨
      e.hora_inicio.getD "23:00".data = "0:00".data) →
      parseFechaYmd (resolveFecha ny nm nd e) = some (y, m, d) →
      (transform_event ny nm nd e).fecha =
        fmtYmd (prevDay y m d).1 (prevDay y m d).2.1 (prevDay y m d).2.2) ∧
    (e.hora_inicio.getD "23:00".data ≠ "00:00".data →
     e.hora_inicio.getD "23:00".data ≠ "0:00".data →
      (transform_event ny nm nd e).fecha = resolveFecha ny nm nd e) := by
  constructor
  · intro hh hp
    simp only [transform_event, midnightAdjust]
    rcases hh with h | h <;> rw [h] <;> simp [hp]
  · intro h1 h2
    simp only [transform_event, midnightAdjust]
    rw [if_neg (by simp [h1, h2])]

/-- C8 (witness): the `00:00` instance of the claim's example. -/
theorem C8_witness :
    (transform_event 2025 10 12 c8witEvent).fecha =
      fmtYmd (prevDay 2025 12 28).1 (prevDay 2025 12 28).2.1
        (prevDay 2025 12 28).2.2 :=
  (C8_midnight_rollback 2025 10 12 c8witEvent 2025 12 28).1
    (Or.inl rfl) (by decide)

/-! ### C9 — ticket-list fallback -/

/-- C9 (counterexample): the synthetic fallback ticket's label is
`"Entrada General"`, not `"General Admission"` as the claim states. -/
theorem C9_counterexample :
    (transform_event 2025 10 12 c9event).entradas =
      [{ tipo := "Entrada General".data, precio := "0".data,
         agotadas := false, descripcion := [],
         url_compra := "myurl".data }] ∧
    ("Entrada General".data : List Char) ≠ "General Admission".data := by
  refine ⟨by decide, by decide⟩

/-- C9 (amended): for every event with no extracted tickets and no
individual prices, normalization outputs exactly one synthetic ticket
`{label: "Entrada General", price: "0", soldOut: false,
purchaseUrl: event.url}`. -/
theorem C9_ticket_fallback (ny nm nd : Nat) (e : DetailEvent)
    (ht : e.tickets = []) (hp : e.prices = []) :
    (transform_event ny nm nd e).entradas =
      [{ tipo := "Entrada General".data, precio := "0".data,
         agotadas := false, descripcion := [], url_compra := e.url }] := by
  simp [transform_event, buildEntradas, ht, hp]

/-- C9 (witness): the fallback at a concrete event. -/
theorem C9_witness :
    (transform_event 2025 10 12 c9event).entradas =
      [{ tipo := "Entrada General".data, precio := "0".data,
         agotadas := false, descripcion := [],
         url_compra := c9event.url }] :=
  C9_ticket_fallback 2025 10 12 c9event rfl rfl

/-! ### C10 — lowercase codes on standard venues -/

theorem lower_not_std (c : Char) (h : isLowerC c = true) :
    isStdCodeC c = false := by
  simp only [isLowerC, Bool.and_eq_true, decide_eq_true_eq] at h
  obtain ⟨h1, h2⟩ := h
  have hZ : ¬(c ≤ 'Z') := fun hc => absurd (le_trans h1 hc) (by decide)
  have h9 : ¬(c ≤ '9') := fun hc => absurd (le_trans h1 hc) (by decide)
  have hh : ¬(c = '-') := fun hc => absurd (hc ▸ h1) (by decide)
  simp [isStdCodeC, isUpperC, isDigitC, hZ, h9, hh]

/-- A standard-code-class character is never a slash. -/
theorem std_ne_slash (x : Char) (hs : isStdCodeC x = true) : x ≠ '/' := by
  simp only [isStdCodeC, Bool.or_eq_true] at hs
  rcases hs with (hs | hs) | hs
  · simp only [isUpperC, Bool.and_eq_true, decide_eq_true_eq] at hs
    exact fun he => absurd (he ▸ hs.1) (by decide)
  · simp only [isDigitC, Bool.and_eq_true, decide_eq_true_eq] at hs
    exact fun he => absurd (he ▸ hs.1) (by decide)
  · rw [decide_eq_true_eq] at hs
    rw [hs]; decide

/-- `takeWhile` over a list built from a satisfying block, a failing
element and a tail stops exactly at the block. -/
theorem takeWhile_append_stop (q : Char → Bool) (xs : List Char) (y : Char)
    (z : List Char) (hxs : ∀ x ∈ xs, q x = true) (hy : q y = false) :
    (xs ++ y :: z).takeWhile q = xs := by
  induction xs with
  | nil => simp [List.takeWhile_cons, hy]
  | cons a xs ih =>
    have ha : q a = true := hxs a (by simp)
    simp [List.takeWhile_cons, ha,
      ih (fun x hx => hxs x (by simp [hx]))]

/-- If the segment after the `/events/` literal contains a lowercase
letter, the anchored standard-venue attempt fails. -/
theorem tryStdAt_none_of_lower (s : List Char)
    (h : ∀ b, s = "/events/".data ++ b →
      ((b.takeWhile (fun c => c ≠ '/')).any isLowerC) = true) :
    tryStdAt s = none := by
  unfold tryStdAt
  by_cases hp : "/events/".data.isPrefixOf s = true
  · obtain ⟨b, hb⟩ := List.isPrefixOf_iff_prefix.mp hp
    subst hb
    have hlow := h b rfl
    have hdrop : ("/events/".data ++ b).drop 8 = b :=
      List.drop_left "/events/".data b
    rw [if_pos hp, hdrop]
    rcases hafter : b.dropWhile isStdCodeC with _ | ⟨a, z⟩
    · exfalso
      have hall : ∀ x ∈ b, isStdCodeC x = true :=
        List.dropWhile_eq_nil_iff.mp hafter
      have hseg : b.takeWhile (fun c => decide (c ≠ '/')) = b :=
        List.takeWhile_eq_self_iff.mpr (fun x hx => by
          simpa using std_ne_slash x (hall x hx))
      rw [hseg] at hlow
      obtain ⟨x, hxb, hxl⟩ := List.any_eq_true.mp hlow
      have h1 := lower_not_std x hxl
      rw [hall x hxb] at h1
      exact absurd h1 (by decide)
    · by_cases hsl : a = '/'
      · exfalso
        have hsplit : b.takeWhile isStdCodeC ++ a :: z = b := by
          rw [← hafter]
          exact List.takeWhile_append_dropWhile isStdCodeC b
        have hstd : ∀ x ∈ b.takeWhile isStdCodeC, isStdCodeC x = true :=
          fun x hx => List.mem_takeWhile_imp hx
        have hseg : b.takeWhile (fun c => decide (c ≠ '/')) =
            b.takeWhile isStdCodeC := by
          conv_lhs => rw [← hsplit]
          apply takeWhile_append_stop
          · intro x hx
            simpa using std_ne_slash x (hstd x hx)
          · rw [hsl]; decide
        rw [hseg] at hlow
        obtain ⟨x, hxb, hxl⟩ := List.any_eq_true.mp hlow
        have h1 := lower_not_std x hxl
        rw [hstd x hxb] at h1
        exact absurd h1 (by decide)
      · rw [if_neg]
        simp [hsl]
  · rw [Bool.not_eq_true] at hp
    simp [hp]

theorem searchStd_none_of (l : List Char)
    (h : ∀ s, s <:+ l → tryStdAt s = none) : searchStd l = none := by
  induction l with
  | nil => rfl
  | cons c l ih =>
    have h1 : tryStdAt (c :: l) = none := h _ (List.suffix_refl _)
    have h2 : searchStd l = none :=
      ih (fun s hs => h s (hs.trans (List.suffix_cons c l)))
    simp [searchStd, h1, h2, Option.orElse]

/-- C10 (counterexample): a URL whose segment directly after the first
`/events/` is all-lowercase can still resolve for a standard venue —
the matcher anchors at a *later* `/events/` occurrence — so the claim
as stated (resolver returns `None` whenever that segment contains a
lowercase letter) is false. -/
theorem C10_counterexample :
    eventsSegment "https://x.com/events/abc/events/ABCD".data =
      some "abc".data ∧
    ("abc".data.any isLowerC) = true ∧
    containsSub "sala-rem".data (pyLower "luminata-disco".data) = false ∧
    extract_code_from_url "https://x.com/events/abc/events/ABCD".data
      "luminata-disco".data = some "ABCD".data := by
  refine ⟨by decide, by decide, by decide, by decide⟩

/-- C10 (amended): for a venue whose slug does not contain `sala-rem`,
`extract_code_from_url` returns `None` on every URL in which the
segment after *each* occurrence of `/events/` contains a lowercase
letter — only codes made of uppercase letters, digits and hyphens are
resolvable, so an all-lowercase event code is discarded. -/
theorem C10_lowercase_rejected (url venue : List Char)
    (hv : containsSub "sala-rem".data (pyLower venue) = false)
    (h : ∀ i, i < url.length →
      "/events/".data.isPrefixOf (url.drop i) = true →
      (((url.drop (i + 8)).takeWhile (fun c => c ≠ '/')).any isLowerC)
        = true) :
    extract_code_from_url url venue = none := by
  unfold extract_code_from_url
  by_cases hc : (url.isEmpty || !containsSub "/events/".data url) = true
  · rw [if_pos hc]
  · rw [if_neg hc]
    simp only [hv, Bool.false_eq_true, if_false]
    apply searchStd_none_of
    intro s hs
    rcases hse : s with _ | ⟨a, s2⟩
    · rfl
    · rw [← hse]
      apply tryStdAt_none_of_lower
      intro b hb
      have hlen : s.length ≤ url.length := hs.length_le
      have hslen : 0 < s.length := by rw [hse]; simp
      have hdropeq : s = url.drop (url.length - s.length) :=
        List.suffix_iff_eq_drop.mp hs
      have hi : url.length - s.length < url.length := by omega
      have hpre : "/events/".data.isPrefixOf
          (url.drop (url.length - s.length)) = true := by
        rw [← hdropeq, hb]
        exact List.isPrefixOf_iff_prefix.mpr ⟨b, rfl⟩
      have hseg := h (url.length - s.length) hi hpre
      have hbdrop : url.drop (url.length - s.length + 8) = b := by
        have h8 : (url.drop (url.length - s.length)).drop 8 = b := by
          rw [← hdropeq, hb]
          exact List.drop_left "/events/".data b
        rw [← h8, List.drop_drop]
      rw [hbdrop] at hseg
      exact hseg

/-- C10 (witness): a standard-venue URL with a single all-lowercase
code is discarded. -/
theorem C10_witness :
    extract_code_from_url "https://site.fourvenues.com/events/abcd".data
      "luminata-disco".data = none :=
  C10_lowercase_rejected "https://site.fourvenues.com/events/abcd".data
    "luminata-disco".data (by decide) (by decide)

end Jaleo
